import Mathlib

/-!
# Shoe customizer (`src/js/application.js`): a shallow embedding

The class `Application` binds named parts of a loaded 3D model to mutable
material descriptors.  This file embeds the part of the class that the
specification talks about:

* the two literal tables of `declareObjects` (`textures`, `meshes`);
* the mesh resolver `getMeshRef` and the shallow walk `getAllChildrenNames`;
* the material applicator `setMaterial`, `setShaderMaterial`,
  `setMeshesColor`, `setMeshesMap`, `forEachMeshes`;
* the pointer handlers `onMouseOver`, `onMouseOut`, `onMouseDown`;
* the control panel code `addGUIFolder`, `removeGUIControls`, `addControls`
  and the three `onChange` callbacks;
* `loopThrough` / `getMeshes` / `setupGUI`, which build the state the handlers
  start from.

## Modelling conventions

* The scene graph is read-only for this program (only materials are written),
  so the model is an immutable tree `Node` and the materials live in a store
  indexed by the position of the node in the tree.  Materials are held by
  value: two nodes never share one material object in this model.
* An object reference is the path of child indices from the root of
  `this.model`, or the `THREE.Scene` that `loadModel` puts above it
  (`this.scene.add(this.model)`); a fresh `THREE.Scene` has the empty name and
  no parent.
* A thrown `TypeError`/`Error` is an explicit outcome that keeps the state
  reached at the point of the throw, because an exception in a browser event
  handler ends that handler only.
* A colour is the 24-bit hex value a `THREE.Color` holds after `setHex` (the
  low 24 bits of the number handed in); a texture is identified by the URL it
  was loaded from.
* `three.js` and `dat.gui` are external; `getObjectByName`, `traverse`,
  `addFolder`, `removeFolder`, `remove`, `addColor`, `add` are modelled after
  their library definitions.
-/

namespace Application

/-! ## Module constants -/

def checkerboard : String :=
  "https://superpills.github.io/threejs-glft-model-texture-customizer/src/textures/checkerboard.jpg"
def camo : String :=
  "https://superpills.github.io/threejs-glft-model-texture-customizer/src/textures/camo.jpg"
def ghost : String :=
  "https://superpills.github.io/threejs-glft-model-texture-customizer/src/textures/ghost.jpg"
def fabricNormal : String :=
  "https://superpills.github.io/threejs-glft-model-texture-customizer/src/textures/fabric_normal.jpg"
def canvasNormal : String :=
  "https://superpills.github.io/threejs-glft-model-texture-customizer/src/textures/canvas_normal.jpg"
def leatherNormal : String :=
  "https://superpills.github.io/threejs-glft-model-texture-customizer/src/textures/leather_normal.png"

/-! ## Data model -/

/-- An entry of `this.textures`; a field that the literal omits is `none`. -/
structure TextureEntry where
  normal : Option String
  pattern : Option String
  color : Option Nat
deriving DecidableEq, Repr

/-- An entry of `this.meshes`.  `editable` and `isFabric` are only ever tested
for truthiness, so an omitted flag is `false`. -/
structure PartDescriptor where
  color : Option Nat
  pattern : Option String
  normal : Option String
  editable : Bool
  isFabric : Bool
deriving DecidableEq, Repr

/-- A texture handle as produced by `getTexture`: the URL it loads (repeat
wrapping on both axes is always set and is not recorded). -/
structure Texture where
  src : Option String
deriving DecidableEq, Repr

/-- The part of a `THREE.Material` the program reads or writes. -/
structure Material where
  type : String
  color : Option Nat
  map : Option Texture
  normalMap : Option Texture
deriving DecidableEq, Repr

/-- What kind of `Object3D` a node is: a `Mesh` (`isMesh` and a material), an
object that has a material but is not a mesh (`Line`, `Points`, `Sprite`), or
an object without material (`Group`, `Object3D`, `Bone`, camera, light). -/
inductive NodeKind where
  | mesh
  | drawable
  | group
deriving DecidableEq, Repr

/-- The loaded model: names, kinds and child lists. -/
inductive Node where
  | mk (name : String) (kind : NodeKind) (children : List Node)

namespace Node

def name : Node → String
  | mk n _ _ => n

def kind : Node → NodeKind
  | mk _ k _ => k

def children : Node → List Node
  | mk _ _ cs => cs

def isMesh (n : Node) : Bool :=
  n.kind == NodeKind.mesh

def hasMaterial (n : Node) : Bool :=
  n.kind != NodeKind.group

end Node

/-- The node reached from `n` by following child indices. -/
def nodeAt : Node → List Nat → Option Node
  | n, [] => some n
  | n, i :: p =>
    match n.children[i]? with
    | none => none
    | some c => nodeAt c p

/-- A reference to an object of the scene graph. -/
inductive ObjRef where
  | scene
  | node (path : List Nat)
deriving DecidableEq, Repr

namespace ObjRef

/-- The field `.parent`; `none` is `null`. -/
def parent : ObjRef → Option ObjRef
  | scene => none
  | node [] => some scene
  | node (i :: p) => some (node (i :: p).dropLast)

end ObjRef

/-- The field `.name` of the referenced object; `none` when the reference
does not denote an object (reading it throws). -/
def objName (model : Node) : ObjRef → Option String
  | ObjRef.scene => some ""
  | ObjRef.node p => (nodeAt model p).map Node.name

/-- The object behind a reference into the model, when it has a `.material`. -/
def materialSlot (model : Node) : ObjRef → Option (List Nat)
  | ObjRef.scene => none
  | ObjRef.node p =>
    match nodeAt model p with
    | some n => if n.hasMaterial then some p else none
    | none => none

mutual
/-- The method `Object3D.getObjectByName` of three.js: the first object in
pre-order (the receiver included) whose name is `v`, with its path. -/
def getObjectByName : Node → String → Option (List Nat × Node)
  | Node.mk n k cs, v =>
    if n = v then some ([], Node.mk n k cs) else getObjectByNameIn cs 0 v
/-- The loop of `getObjectByName` over the children, from index `i` on. -/
def getObjectByNameIn : List Node → Nat → String → Option (List Nat × Node)
  | [], _, _ => none
  | c :: cs, i, v =>
    match getObjectByName c v with
    | some (p, n) => some (i :: p, n)
    | none => getObjectByNameIn cs (i + 1) v
end

mutual
/-- The method `Object3D.traverse` of three.js: every object in pre-order, as
(path, node); `pre` is the reversed path of the receiver. -/
def traverse : Node → List Nat → List (List Nat × Node)
  | Node.mk n k cs, pre => (pre.reverse, Node.mk n k cs) :: traverseIn cs 0 pre
/-- The loop of `traverse` over the children, from index `i` on. -/
def traverseIn : List Node → Nat → List Nat → List (List Nat × Node)
  | [], _, _ => []
  | c :: cs, i, pre => traverse c (i :: pre) ++ traverseIn cs (i + 1) pre
end

mutual
/-- The objects on which `getMeshes(child)` runs its mesh branch, in call
order: the node itself when it is a mesh, otherwise the result for each child
in turn.  `pre` is the reversed path of `child`. -/
def getMeshesTargets : Node → List Nat → List (List Nat)
  | Node.mk _ k cs, pre =>
    if k == NodeKind.mesh then [pre.reverse] else getMeshesTargetsIn cs 0 pre
/-- The loop `child.children.forEach` of `getMeshes`. -/
def getMeshesTargetsIn : List Node → Nat → List Nat → List (List Nat)
  | [], _, _ => []
  | c :: cs, i, pre => getMeshesTargets c (i :: pre) ++ getMeshesTargetsIn cs (i + 1) pre
end

/-! ## JavaScript values -/

/-- Truthiness of an optional number: absent and `0` are falsy. -/
def truthyNum : Option Nat → Bool
  | some n => n != 0
  | none => false

/-- Truthiness of an optional string: absent and the empty string are falsy. -/
def truthyStr : Option String → Bool
  | some s => s != ""
  | none => false

/-- The property names every plain object inherits from `Object.prototype`. -/
def objectPrototypeKeys : List String :=
  ["constructor", "__defineGetter__", "__defineSetter__", "hasOwnProperty",
   "__lookupGetter__", "__lookupSetter__", "isPrototypeOf", "propertyIsEnumerable",
   "toString", "valueOf", "__proto__", "toLocaleString"]

/-- The expression `Object.keys(table)`. -/
def keys {α : Type} (table : List (String × α)) : List String :=
  table.map Prod.fst

/-- The read `table[k]` on an object literal: the own property, else an
inherited member of `Object.prototype` (a function or object on which every
field the program reads is `undefined`, given here as `inherited`), else
`undefined` (`none`). -/
def getProp {α : Type} (table : List (String × α)) (inherited : α) (k : String) : Option α :=
  match table.lookup k with
  | some v => some v
  | none => if k ∈ objectPrototypeKeys then some inherited else none

/-- A value on which `.color`, `.pattern`, `.normal`, `.editable`, `.isFabric`
are all `undefined`. -/
def noDescriptor : PartDescriptor :=
  { color := none, pattern := none, normal := none, editable := false, isFabric := false }

/-- A value on which `.normal`, `.pattern`, `.color` are all `undefined`. -/
def noEntry : TextureEntry :=
  { normal := none, pattern := none, color := none }

/-- A field write `table[k].f = v` at an own key (the only writes the program
issues); `none` when `k` is not an own key. -/
def setProp {α : Type} : List (String × α) → String → (α → α) → Option (List (String × α))
  | [], _, _ => none
  | (k0, v) :: rest, k, f =>
    if k0 = k then some ((k0, f v) :: rest)
    else (setProp rest k f).map (fun r => (k0, v) :: r)

/-! ## dat.gui -/

/-- The object a controller is bound to. -/
inductive Bound where
  | shoeFabric
  | mesh (key : String)
deriving DecidableEq, Repr

/-- A dat.gui controller: the bound object and property. -/
structure Controller where
  object : Bound
  property : String
  options : List String
deriving DecidableEq, Repr

/-- A dat.gui folder. -/
structure Folder where
  name : String
  controllers : List Controller
  closed : Bool
deriving DecidableEq, Repr

/-! ## Application state -/

/-- The fields of an `Application` instance that the embedded methods use. -/
structure App where
  textures : List (String × TextureEntry)
  shoeFabric : String
  meshes : List (String × PartDescriptor)
  model : Node
  materials : List Nat → Material
  gui : Option (List Folder)
  textureFolder : Option String
  textureColor : Option Controller
  texturePattern : Option Controller
  texturesUpdated : Nat

/-- How a method call ends: normally, or by a throw; both carry the state. -/
inductive Outcome where
  | done (s : App)
  | threw (s : App)

namespace Outcome

def state : Outcome → App
  | done s => s
  | threw s => s

def isDone : Outcome → Bool
  | done _ => true
  | threw _ => false

/-- Sequencing: the continuation runs only after a normal end. -/
def andThen : Outcome → (App → Outcome) → Outcome
  | done s, k => k s
  | threw s, _ => threw s

end Outcome

/-- The method `Array.prototype.forEach` with a state-changing callback. -/
def forEach {α : Type} : List α → (α → App → Outcome) → App → Outcome
  | [], _, s => Outcome.done s
  | x :: xs, f, s => (f x s).andThen (forEach xs f)

/-- The store after `child.material = m` (or a write into the material). -/
def setMat (s : App) (p : List Nat) (m : Material) : App :=
  { s with materials := fun q => if q = p then m else s.materials q }

/-- The call `window.dispatchEvent(this.textureEvent)`. -/
def dispatchTexturesUpdated (s : App) : App :=
  { s with texturesUpdated := s.texturesUpdated + 1 }

/-! ## `declareObjects` -/

def declaredTextures : List (String × TextureEntry) :=
  [ ("Leather", { normal := some leatherNormal, pattern := none, color := none }),
    ("Canvas", { normal := some canvasNormal, pattern := none, color := none }),
    ("Laces", { normal := some fabricNormal, pattern := none, color := none }),
    ("Rubber", { normal := none, pattern := none, color := some 0xffffff }),
    ("Camouflage", { normal := none, pattern := some camo, color := none }),
    ("Checkerboard", { normal := none, pattern := some checkerboard, color := none }),
    ("Ghost", { normal := none, pattern := some ghost, color := none }) ]

def declaredMeshes : List (String × PartDescriptor) :=
  [ ("Tag", { color := none, pattern := none, normal := some "Canvas",
              editable := false, isFabric := false }),
    ("Plate", { color := none, pattern := none, normal := none,
                editable := false, isFabric := false }),
    ("Bottom", { color := some 0xffffff, pattern := none, normal := none,
                 editable := false, isFabric := false }),
    ("Stripe", { color := some 0x4d4747, pattern := none, normal := none,
                 editable := true, isFabric := false }),
    ("Binding", { color := some 0xffffff, pattern := some "None", normal := some "Leather",
                  editable := true, isFabric := true }),
    ("Eyelets", { color := some 0xa7a7a7, pattern := none, normal := none,
                  editable := true, isFabric := false }),
    ("Inner_Binding", { color := some 0xff0000, pattern := none, normal := none,
                        editable := false, isFabric := false }),
    ("Laces", { color := some 0xffffff, pattern := none, normal := some "Laces",
                editable := true, isFabric := false }),
    ("Quarters", { color := some 0xa70909, pattern := some "None", normal := some "Leather",
                   editable := true, isFabric := true }),
    ("Stitch", { color := some 0xff0000, pattern := none, normal := none,
                 editable := false, isFabric := false }),
    ("Tongue", { color := some 0x385225, pattern := some "None", normal := some "Leather",
                 editable := true, isFabric := true }),
    ("Vamp", { color := some 0xffffff, pattern := some "Camouflage", normal := some "Leather",
               editable := true, isFabric := true }) ]

/-- The instance after `declareObjects`, with the model the loader delivers
and the materials its meshes carry. -/
def declareObjects (model : Node) (materials : List Nat → Material) : App :=
  { textures := declaredTextures
    shoeFabric := "Leather"
    meshes := declaredMeshes
    model := model
    materials := materials
    gui := none
    textureFolder := none
    textureColor := none
    texturePattern := none
    texturesUpdated := 0 }

/-! ## Mesh resolver -/

/-- The method `getMeshRef(child)`: the first of `child.name`,
`child.parent.name` that is a key of `this.meshes`, else
`child.parent.parent.name` unchecked.  `none` is a `TypeError` (a `name` read
on `null`/`undefined`). -/
def getMeshRef (meshes : List (String × PartDescriptor)) (model : Node) (child : ObjRef) :
    Option String :=
  match objName model child with
  | none => none
  | some n =>
    if (keys meshes).contains n then some n
    else
      match child.parent with
      | none => none
      | some par =>
        match objName model par with
        | none => none
        | some pn =>
          if (keys meshes).contains pn then some pn
          else
            match par.parent with
            | none => none
            | some gp => objName model gp

/-- The argument `meshRef` of `getAllChildrenNames`: a string or an array of
strings. -/
inductive MeshRefArg where
  | key (meshRef : String)
  | list (meshRefs : List String)
deriving DecidableEq, Repr

/-- The string branch of `getAllChildrenNames`. -/
def getAllChildrenNamesOfKey (model : Node) (meshRef : String) : Option (List String) :=
  match getObjectByName model meshRef with
  | none => none
  | some (_, main) =>
    if main.isMesh then some [main.name]
    else some (main.children.map Node.name)

/-- The array branch of `getAllChildrenNames`: `children.push(...)` of the
result for each element in turn, starting from the names pushed so far. -/
def getAllChildrenNamesPush (model : Node) : List String → List String → Option (List String)
  | [], children => some children
  | ref :: rest, children =>
    match getAllChildrenNamesOfKey model ref with
    | none => none
    | some names => getAllChildrenNamesPush model rest (children ++ names)

/-- The method `getAllChildrenNames(meshRef, model)`; `none` is a `TypeError`
(no object has the requested name). -/
def getAllChildrenNames (model : Node) : MeshRefArg → Option (List String)
  | MeshRefArg.key meshRef => getAllChildrenNamesOfKey model meshRef
  | MeshRefArg.list meshRefs => getAllChildrenNamesPush model meshRefs []

/-! ## Material applicator -/

/-- The material built by the constructor `new THREE.MeshPhongMaterial()`. -/
def newMeshPhongMaterial : Material :=
  { type := "MeshPhongMaterial", color := some 0xffffff, map := none, normalMap := none }

/-- The material built in `setShaderMaterial`; a `ShaderMaterial` has no
`color`, `map` or `normalMap`. -/
def newShaderMaterial : Material :=
  { type := "ShaderMaterial", color := none, map := none, normalMap := none }

/-- The method `getTexture(name)`. -/
def getTexture (name : Option String) : Texture :=
  { src := name }

/-- The method `Color.setHex(hex)` of three.js: the channels are read with
`hex >> 16 & 255`, `hex >> 8 & 255`, `hex & 255`, so only the low 24 bits of
the number are kept. -/
def setHex (hex : Nat) : Nat :=
  hex % 0x1000000

/-- The constructor call `new THREE.Color(color)`: a number goes through
`setHex`; `undefined` leaves the default white. -/
def newColor : Option Nat → Nat
  | some c => setHex c
  | none => 0xffffff

/-- The argument of `setMaterial`: a node name or an object (`none` is
`undefined`). -/
inductive ChildArg where
  | name (childName : String)
  | object (child : Option ObjRef)

/-- The colour step of `setMaterial`: `if (currentMesh.color) mat.color.setHex(...)`. -/
def applyColor (currentMesh : PartDescriptor) (mat : Material) : Material :=
  if truthyNum currentMesh.color then { mat with color := currentMesh.color.map setHex }
  else mat

/-- The pattern step of `setMaterial`; `none` is the `TypeError` of reading
`.pattern` on a missing registry entry. -/
def applyPattern (textures : List (String × TextureEntry)) (currentMesh : PartDescriptor)
    (mat : Material) : Option Material :=
  match currentMesh.pattern with
  | none => some mat
  | some pat =>
    if pat != "" && pat != "None" then
      match getProp textures noEntry pat with
      | none => none
      | some entry => some { mat with map := some (getTexture entry.pattern) }
    else some mat

/-- The normal-map step of `setMaterial`; `none` is the `TypeError` of reading
`.normal` on a missing registry entry. -/
def applyNormal (textures : List (String × TextureEntry)) (currentMesh : PartDescriptor)
    (mat : Material) : Option Material :=
  match currentMesh.normal with
  | none => some mat
  | some nrm =>
    if nrm != "" then
      match getProp textures noEntry nrm with
      | none => none
      | some entry => some { mat with normalMap := some (getTexture entry.normal) }
    else some mat

/-- The first lines of `setMaterial`: a string argument is looked up by name. -/
def resolveChild (model : Node) : ChildArg → Option ObjRef
  | ChildArg.name childName => (getObjectByName model childName).map (fun r => ObjRef.node r.1)
  | ChildArg.object child => child

/-- The method `setMaterial(child)`.  When the existing material is a
`MeshPhongMaterial` it is updated in place, so the fields written before a
throw stay written. -/
def setMaterial (child : ChildArg) (s : App) : Outcome :=
  match resolveChild s.model child with
  | none => Outcome.threw s
  | some child =>
    match getMeshRef s.meshes s.model child with
    | none => Outcome.threw s
    | some meshRef =>
      match materialSlot s.model child with
      | none => Outcome.threw s
      | some p =>
        match getProp s.meshes noDescriptor meshRef with
        | none => Outcome.threw s
        | some currentMesh =>
          let inPlace := (s.materials p).type == "MeshPhongMaterial"
          let mat := if inPlace then s.materials p else newMeshPhongMaterial
          let written (m : Material) : App := if inPlace then setMat s p m else s
          let mat := applyColor currentMesh mat
          match applyPattern s.textures currentMesh mat with
          | none => Outcome.threw (written mat)
          | some mat =>
            match applyNormal s.textures currentMesh mat with
            | none => Outcome.threw (written mat)
            | some mat => Outcome.done (setMat s p mat)

/-- The method `setShaderMaterial(childName)`; the uniforms and the clock
offset it also resets are not part of the state. -/
def setShaderMaterial (childName : String) (s : App) : Outcome :=
  match getObjectByName s.model childName with
  | none => Outcome.threw s
  | some (p, child) =>
    if child.hasMaterial then Outcome.done (setMat s p newShaderMaterial)
    else Outcome.threw s

/-- The callback of the loop in `setMeshesColor`. -/
def setMeshesColorStep (color : Option Nat) (childName : String) (s : App) : Outcome :=
  match getObjectByName s.model childName with
  | none => Outcome.threw s
  | some (p, child) =>
    if child.isMesh then
      Outcome.done (setMat s p { s.materials p with color := some (newColor color) })
    else Outcome.done s

/-- The method `setMeshesColor(meshRef, model, color)`, with `model` the
loaded model as at every call site. -/
def setMeshesColor (meshRef : MeshRefArg) (color : Option Nat) (s : App) : Outcome :=
  match getAllChildrenNames s.model meshRef with
  | none => Outcome.threw s
  | some childrenNames =>
    (forEach childrenNames (setMeshesColorStep color) s).andThen
      (fun s => Outcome.done (dispatchTexturesUpdated s))

/-- The method `forEachMeshes(meshRef, model, func)`. -/
def forEachMeshes (meshRef : MeshRefArg) (func : String → App → Outcome) (s : App) : Outcome :=
  match getAllChildrenNames s.model meshRef with
  | none => Outcome.threw s
  | some childrenNames => forEach childrenNames func s

/-- The callback of the loop in `setMeshesMap`. -/
def setMeshesMapStep (texture : Option String) (childName : String) (s : App) : Outcome :=
  match getObjectByName s.model childName with
  | none => Outcome.threw s
  | some (p, child) =>
    if child.hasMaterial then
      Outcome.done (setMat s p
        { s.materials p with
          map := if truthyStr texture then some (getTexture texture) else none })
    else Outcome.threw s

/-- The method `setMeshesMap(meshRef, model, texture)`. -/
def setMeshesMap (meshRef : MeshRefArg) (texture : Option String) (s : App) : Outcome :=
  match getAllChildrenNames s.model meshRef with
  | none => Outcome.threw s
  | some childrenNames =>
    (forEach childrenNames (setMeshesMapStep texture) s).andThen
      (fun s => Outcome.done (dispatchTexturesUpdated s))

/-! ## Control panel -/

/-- The method `folder.remove(controller)` of dat.gui on the folder named
`folderName`. -/
def removeController (folders : List Folder) (folderName : String) (c : Controller) :
    List Folder :=
  folders.map (fun f =>
    if f.name = folderName then { f with controllers := f.controllers.erase c } else f)

/-- The methods `folder.add` / `folder.addColor` of dat.gui on the folder
named `folderName`. -/
def addController (folders : List Folder) (folderName : String) (c : Controller) :
    List Folder :=
  folders.map (fun f =>
    if f.name = folderName then { f with controllers := f.controllers ++ [c] } else f)

/-- The method `folder.open()` of dat.gui. -/
def openFolder (folders : List Folder) (folderName : String) : List Folder :=
  folders.map (fun f => if f.name = folderName then { f with closed := false } else f)

/-- The method `removeGUIControls()`. -/
def removeGUIControls (s : App) : Outcome :=
  let afterPattern : Outcome :=
    match s.texturePattern with
    | none => Outcome.done s
    | some c =>
      match s.textureFolder with
      | none => Outcome.threw s
      | some folder =>
        Outcome.done
          { s with gui := s.gui.map (fun g => removeController g folder c)
                   texturePattern := none }
  afterPattern.andThen (fun s =>
    match s.textureColor with
    | none => Outcome.done s
    | some c =>
      match s.textureFolder with
      | none => Outcome.threw s
      | some folder =>
        Outcome.done
          { s with gui := s.gui.map (fun g => removeController g folder c)
                   textureColor := none })

/-- The options of the pattern control: `"None"` and
`Object.keys(this.textures).slice(4, 7)`. -/
def patternOptions (textures : List (String × TextureEntry)) : List String :=
  "None" :: ((keys textures).drop 4).take 3

/-- The options of the fabric type control:
`Object.keys(this.textures).slice(0, 2)`. -/
def fabricOptions (textures : List (String × TextureEntry)) : List String :=
  (keys textures).take 2

/-- The method `addControls(meshRef)`.  `addColor` of dat.gui throws when the
bound value is not a colour (here: `undefined`). -/
def addControls (meshRef : String) (s : App) : Outcome :=
  (removeGUIControls s).andThen (fun s =>
    match s.textureFolder, getProp s.meshes noDescriptor meshRef with
    | some folder, some d =>
      if d.color.isSome then
        let colorCtl : Controller :=
          { object := Bound.mesh meshRef, property := "color", options := [] }
        let s : App :=
          { s with gui := s.gui.map (fun g => addController g folder colorCtl)
                   textureColor := some colorCtl }
        if truthyStr d.pattern then
          let patternCtl : Controller :=
            { object := Bound.mesh meshRef, property := "pattern",
              options := patternOptions s.textures }
          Outcome.done
            { s with gui := s.gui.map (fun g => addController g folder patternCtl)
                     texturePattern := some patternCtl }
        else Outcome.done s
      else Outcome.threw s
    | _, _ => Outcome.threw s)

/-- The block `if (this.textureFolder) { ... }` that opens `addGUIFolder`. -/
def addGUIFolderTeardown (s : App) : Outcome :=
  match s.textureFolder with
  | none => Outcome.done s
  | some folder =>
    (removeGUIControls s).andThen (fun s =>
      match s.gui with
      | none => Outcome.threw s
      | some g =>
        Outcome.done
          { s with gui := some (g.filter (fun f => f.name != folder))
                   textureFolder := none })

/-- The rest of `addGUIFolder`: `gui.addFolder(meshRef)` (which throws when
the GUI already has a folder of that name), `addControls`, `open`. -/
def addGUIFolderCreate (meshRef : String) (s : App) : Outcome :=
  match s.gui with
  | none => Outcome.threw s
  | some g =>
    if g.any (fun f => f.name == meshRef) then Outcome.threw s
    else
      let s : App :=
        { s with gui := some (g ++ [{ name := meshRef, controllers := [], closed := true }])
                 textureFolder := some meshRef }
      (addControls meshRef s).andThen (fun s =>
        Outcome.done { s with gui := s.gui.map (fun g => openFolder g meshRef) })

/-- The method `addGUIFolder(meshRef)`. -/
def addGUIFolder (meshRef : String) (s : App) : Outcome :=
  (addGUIFolderTeardown s).andThen (addGUIFolderCreate meshRef)

/-- The `onChange` callback of the colour control created by
`addControls(meshRef)`. -/
def textureColorOnChange (meshRef : String) (s : App) : Outcome :=
  match getProp s.meshes noDescriptor meshRef with
  | none => Outcome.threw s
  | some d => setMeshesColor (MeshRefArg.key meshRef) d.color s

/-- The `onChange` callback of the pattern control created by
`addControls(meshRef)`. -/
def texturePatternOnChange (meshRef : String) (val : String) (s : App) : Outcome :=
  match setProp s.meshes meshRef (fun d => { d with pattern := some val }) with
  | none => Outcome.threw s
  | some meshes =>
    let s : App := { s with meshes := meshes }
    match getProp s.meshes noDescriptor meshRef with
    | none => Outcome.threw s
    | some d =>
      if d.pattern = some "None" then setMeshesMap (MeshRefArg.key meshRef) none s
      else
        match d.pattern with
        | none => Outcome.threw s
        | some pat =>
          match getProp s.textures noEntry pat with
          | none => Outcome.threw s
          | some entry => setMeshesMap (MeshRefArg.key meshRef) entry.pattern s

/-- The first loop of the fabric type callback:
`this.meshes[key].normal = val`. -/
def setFabricNormal (val : String) (key : String) (s : App) : Outcome :=
  match setProp s.meshes key (fun d => { d with normal := some val }) with
  | none => Outcome.threw s
  | some meshes => Outcome.done { s with meshes := meshes }

/-- The `onChange` callback of the fabric type control of `setupGUI`. -/
def shoeFabricOnChange (val : String) (s : App) : Outcome :=
  let fabricMeshes : List String :=
    (keys s.meshes).filter (fun key =>
      match getProp s.meshes noDescriptor key with
      | some d => d.isFabric
      | none => false)
  (forEach fabricMeshes (setFabricNormal val) s).andThen (fun s =>
    match getAllChildrenNames s.model (MeshRefArg.list fabricMeshes) with
    | none => Outcome.threw s
    | some childrenNames =>
      (forEach childrenNames
        (fun childName s =>
          setMaterial
            (ChildArg.object ((getObjectByName s.model childName).map
              (fun r => ObjRef.node r.1))) s) s).andThen
        (fun s => Outcome.done (dispatchTexturesUpdated s)))

/-! ## Pointer handlers -/

/-- The method `onMouseOver(interactionEvent)`, on the event target. -/
def onMouseOver (target : ObjRef) (s : App) : Outcome :=
  match getMeshRef s.meshes s.model target with
  | none => Outcome.threw s
  | some meshRef =>
    match getProp s.meshes noDescriptor meshRef with
    | none => Outcome.threw s
    | some d =>
      if d.editable then forEachMeshes (MeshRefArg.key meshRef) setShaderMaterial s
      else Outcome.done s

/-- The method `onMouseOut(interactionEvent)`, on the event's current target. -/
def onMouseOut (target : ObjRef) (s : App) : Outcome :=
  match getMeshRef s.meshes s.model target with
  | none => Outcome.threw s
  | some meshRef =>
    match getProp s.meshes noDescriptor meshRef with
    | none => Outcome.threw s
    | some d =>
      if d.editable then
        forEachMeshes (MeshRefArg.key meshRef) (fun childName => setMaterial (ChildArg.name childName)) s
      else Outcome.done s

/-- The method `onMouseDown(interactionEvent)`, on the event target. -/
def onMouseDown (target : ObjRef) (s : App) : Outcome :=
  match getMeshRef s.meshes s.model target with
  | none => Outcome.threw s
  | some meshRef =>
    match getProp s.meshes noDescriptor meshRef with
    | none => Outcome.threw s
    | some d =>
      if d.editable then addGUIFolder meshRef s
      else Outcome.done s

/-! ## Loading -/

/-- The method `getMeshes(child)` for the node `child` at path `p`. -/
def getMeshes (p : List Nat) (child : Node) (s : App) : Outcome :=
  forEach (getMeshesTargets child p.reverse)
    (fun q => setMaterial (ChildArg.object (some (ObjRef.node q)))) s

/-- The method `loopThrough()`. -/
def loopThrough (s : App) : Outcome :=
  forEach ((traverse s.model []).filter (fun r => (keys s.meshes).contains r.2.name))
    (fun r => getMeshes r.1 r.2) s

/-- The method `setupGUI()`. -/
def setupGUI (s : App) : App :=
  { s with
    gui := some
      [ { name := "Shoe Material"
          controllers :=
            [ { object := Bound.shoeFabric, property := "type",
                options := fabricOptions s.textures } ]
          closed := false } ] }

/-- The instance once the loader has delivered `model`: `declareObjects`, then
the success callback of `loadModel` (`loopThrough`, `setupGUI`).  A throw in
`loopThrough` ends the callback, so `setupGUI` does not run. -/
def loadModel (model : Node) (materials : List Nat → Material) : App :=
  match loopThrough (declareObjects model materials) with
  | Outcome.done s => setupGUI s
  | Outcome.threw s => s

/-! ## Events -/

/-- What the user can do once the model is loaded. -/
inductive Event where
  | mouseOver (target : ObjRef)
  | mouseOut (target : ObjRef)
  | mouseDown (target : ObjRef)
  | colorChange (val : Nat)
  | patternChange (val : String)
  | fabricChange (val : String)
deriving DecidableEq, Repr

/-- One event.  A dat.gui controller first stores the new value in the bound
field (`object[property] = value`) and then calls `onChange`; a control that
is not in the GUI produces no event. -/
def step : Event → App → Outcome
  | Event.mouseOver target, s => onMouseOver target s
  | Event.mouseOut target, s => onMouseOut target s
  | Event.mouseDown target, s => onMouseDown target s
  | Event.colorChange val, s =>
    match s.textureColor with
    | some { object := Bound.mesh meshRef, property := _, options := _ } =>
      match setProp s.meshes meshRef (fun d => { d with color := some val }) with
      | none => Outcome.threw s
      | some meshes => textureColorOnChange meshRef { s with meshes := meshes }
    | _ => Outcome.done s
  | Event.patternChange val, s =>
    match s.texturePattern with
    | some { object := Bound.mesh meshRef, property := _, options := _ } =>
      match setProp s.meshes meshRef (fun d => { d with pattern := some val }) with
      | none => Outcome.threw s
      | some meshes => texturePatternOnChange meshRef val { s with meshes := meshes }
    | _ => Outcome.done s
  | Event.fabricChange val, s =>
    match s.gui with
    | some _ => shoeFabricOnChange val { s with shoeFabric := val }
    | none => Outcome.done s

/-- A sequence of events, each handled to its end (normal or thrown). -/
def run : App → List Event → App
  | s, [] => s
  | s, e :: es => run (step e s).state es

/-! ## Specification-side definitions -/

/-- The object `k` levels above `r` (`0`: `r` itself). -/
def ancestor : ObjRef → Nat → Option ObjRef
  | r, 0 => some r
  | r, k + 1 =>
    match r.parent with
    | none => none
    | some par => ancestor par k

/-- The name of the object `k` levels above `child`, when there is one. -/
def ancestorName (model : Node) (child : ObjRef) (k : Nat) : Option String :=
  match ancestor child k with
  | none => none
  | some r => objName model r

/-- Reference definition of the leaf names of one part, in the words of the
specification: the named node itself when it is a mesh, otherwise the names of
its immediate children. -/
def allLeafMeshNamesOfKey (model : Node) (partKey : String) : Option (List String) :=
  (getObjectByName model partKey).map (fun r =>
    if r.2.isMesh then [r.2.name] else r.2.children.map Node.name)

/-- Reference definition of the leaf names, in the words of the
specification: for a set of part keys, the concatenation of the single-key
results in the order of the keys. -/
def allLeafMeshNames (model : Node) : MeshRefArg → Option (List String)
  | MeshRefArg.key partKey => allLeafMeshNamesOfKey model partKey
  | MeshRefArg.list partKeys =>
    (partKeys.mapM (allLeafMeshNamesOfKey model)).map List.flatten

/-- The leaf meshes of a part: the part's named node when it is a mesh,
otherwise each of its immediate children that is a mesh. -/
def leafMeshes (model : Node) (partKey : String) : List (List Nat) :=
  match getObjectByName model partKey with
  | none => []
  | some (p, main) =>
    if main.isMesh then [p]
    else
      ((List.range main.children.length).filter (fun i =>
        match main.children[i]? with
        | some c => c.isMesh
        | none => false)).map (fun i => p ++ [i])

/-! ## Example scenes -/

/-- The material a glTF mesh arrives with. -/
def gltfMaterial : Material :=
  { type := "MeshStandardMaterial", color := some 0x808080, map := none, normalMap := none }

/-- A mesh named after one part, inside the node of another part. -/
def nestedPartsScene : Node :=
  Node.mk "Scene" NodeKind.group
    [ Node.mk "Vamp" NodeKind.group [Node.mk "Laces" NodeKind.mesh []] ]

/-- A mesh two levels below a part node. -/
def deepScene : Node :=
  Node.mk "Scene" NodeKind.group
    [ Node.mk "Vamp" NodeKind.group
        [ Node.mk "Vamp_group" NodeKind.group [Node.mk "Vamp_mesh" NodeKind.mesh []] ] ]

/-- A mesh under nodes none of which is named after a part. -/
def unnamedScene : Node :=
  Node.mk "Scene" NodeKind.group
    [ Node.mk "Sole_group" NodeKind.group [Node.mk "Sole_mesh" NodeKind.mesh []] ]

/-- A small shoe: one part that is a mesh, two parts with mesh children. -/
def shoeScene : Node :=
  Node.mk "Scene" NodeKind.group
    [ Node.mk "Stripe" NodeKind.mesh [],
      Node.mk "Vamp" NodeKind.group
        [Node.mk "Vamp_1" NodeKind.mesh [], Node.mk "Vamp_2" NodeKind.mesh []],
      Node.mk "Laces" NodeKind.group
        [Node.mk "Laces_1" NodeKind.mesh [], Node.mk "Laces_2" NodeKind.mesh []],
      Node.mk "Tag" NodeKind.mesh [] ]

/-- Whether the object at path `q` is the one `getObjectByName` finds for its
name (the first object of the model, in pre-order, with that name). -/
def firstOfItsName (model : Node) (q : List Nat) : Bool :=
  match nodeAt model q with
  | some c => (getObjectByName model c.name).map Prod.fst == some q
  | none => false

/-- The paths of the immediate children of the part's named node, when that
node is not itself a mesh. -/
def partChildren (model : Node) (partKey : String) : List (List Nat) :=
  match getObjectByName model partKey with
  | none => []
  | some (p, main) =>
    if main.isMesh then []
    else (List.range main.children.length).map (fun i => p ++ [i])

/-- Whether the object at path `q` exists and has a `.material`. -/
def hasMaterialAt (model : Node) (q : List Nat) : Bool :=
  (materialSlot model (ObjRef.node q)).isSome

/-- Three meshes with the same name, one outside any part and one in each of
two parts. -/
def duplicateNameScene : Node :=
  Node.mk "Scene" NodeKind.group
    [ Node.mk "Panel" NodeKind.mesh [],
      Node.mk "Laces" NodeKind.group [Node.mk "Panel" NodeKind.mesh []],
      Node.mk "Vamp" NodeKind.group [Node.mk "Panel" NodeKind.mesh []] ]

/-- The state of `shoeScene` after loading, a press on the mesh "Stripe" and
the choice of black (`0x000000`) in the colour control of the panel. -/
def blackStripeState : App :=
  run (loadModel shoeScene (fun _ => gltfMaterial))
    [Event.mouseDown (ObjRef.node [0]), Event.colorChange 0x000000]

/-- The fields no handler writes, and the control panel fields. -/
def frame (s : App) :
    List (String × TextureEntry) × Node × Option (List Folder) × Option String ×
      Option Controller × Option Controller :=
  (s.textures, s.model, s.gui, s.textureFolder, s.textureColor, s.texturePattern)

/-- An operation that writes materials and the notification count only. -/
def Quiet (f : App → Outcome) : Prop :=
  ∀ s, frame (f s).state = frame s ∧ (f s).state.meshes = s.meshes ∧
    (f s).state.shoeFabric = s.shoeFabric

/-- The editability and fabric flags of a table, key by key. -/
def flags (m : List (String × PartDescriptor)) : List (String × Bool × Bool) :=
  m.map (fun e => (e.1, e.2.editable, e.2.isFabric))

/-- A key that `declareObjects` marks editable. -/
def EditableKey (k : String) : Prop :=
  ∃ d, declaredMeshes.lookup k = some d ∧ d.editable = true

/-- One field write of a handler into the descriptor table: a colour by the
colour control, a pattern (subject to `pat`) by the pattern control or its
callback, a normal (subject to `nrm`) by the fabric type callback; always at
an editable key. -/
inductive Write (pat nrm : String → Prop) :
    List (String × PartDescriptor) → List (String × PartDescriptor) → Prop where
  | color (m m' : List (String × PartDescriptor)) (k : String) (val : Nat) :
      EditableKey k →
      setProp m k (fun d => { d with color := some val }) = some m' → Write pat nrm m m'
  | pattern (m m' : List (String × PartDescriptor)) (k : String) (val : String) :
      EditableKey k → pat val →
      setProp m k (fun d => { d with pattern := some val }) = some m' → Write pat nrm m m'
  | normal (m m' : List (String × PartDescriptor)) (k : String) (val : String) :
      EditableKey k → nrm val →
      setProp m k (fun d => { d with normal := some val }) = some m' → Write pat nrm m m'

/-- Zero or more writes in a row. -/
inductive Writes (pat nrm : String → Prop) :
    List (String × PartDescriptor) → List (String × PartDescriptor) → Prop where
  | refl (m : List (String × PartDescriptor)) : Writes pat nrm m m
  | step (m m' m'' : List (String × PartDescriptor)) :
      Write pat nrm m m' → Writes pat nrm m' m'' → Writes pat nrm m m''

/-- What every reachable descriptor table keeps: the keys and flags of the
declared table, the declared descriptor of every non-editable part, and a
colour on every editable part. -/
structure TableInv (m : List (String × PartDescriptor)) : Prop where
  sameFlags : flags m = flags declaredMeshes
  frozen : ∀ k d, declaredMeshes.lookup k = some d → d.editable = false → m.lookup k = some d
  colored : ∀ e ∈ m, e.2.editable = true → e.2.color.isSome = true

/-- A pattern value is absent, "None", or names a registry entry that has a
pattern image. -/
def patternOk (textures : List (String × TextureEntry)) : Option String → Bool
  | none => true
  | some pat =>
    pat == "None" ||
      (match textures.lookup pat with
       | some entry => entry.pattern.isSome
       | none => false)

/-- A normal value is absent or names a registry entry that has a normal map. -/
def normalOk (textures : List (String × TextureEntry)) : Option String → Bool
  | none => true
  | some nrm =>
    match textures.lookup nrm with
    | some entry => entry.normal.isSome
    | none => false

/-- Reference integrity of a descriptor table against a texture registry. -/
def refIntegrity (textures : List (String × TextureEntry))
    (meshes : List (String × PartDescriptor)) : Bool :=
  meshes.all (fun e => patternOk textures e.2.pattern && normalOk textures e.2.normal)

/-- An event whose value is one its control offers: the pattern control
offers `patternOptions`, the fabric type control `fabricOptions`. -/
def admissible (textures : List (String × TextureEntry)) : Event → Bool
  | Event.patternChange val => (patternOptions textures).contains val
  | Event.fabricChange val => (fabricOptions textures).contains val
  | _ => true

/-- The folder "Shoe Material" that `setupGUI` creates. -/
def shoeMaterialFolder : Folder :=
  { name := "Shoe Material"
    controllers :=
      [ { object := Bound.shoeFabric, property := "type",
          options := fabricOptions declaredTextures } ]
    closed := false }

/-- The colour control of the panel of part `k`. -/
def colorController (k : String) : Controller :=
  { object := Bound.mesh k, property := "color", options := [] }

/-- The pattern control of the panel of part `k`. -/
def patternController (k : String) : Controller :=
  { object := Bound.mesh k, property := "pattern", options := patternOptions declaredTextures }

/-- No part panel: `textureFolder`, `textureColor`, `texturePattern` are all
`null`. -/
def NoPanel (s : App) : Prop :=
  s.textureFolder = none ∧ s.textureColor = none ∧ s.texturePattern = none

/-- The shape of the GUI when the open part panel is `cur`: either there is
no GUI at all (loading threw before `setupGUI`) and no panel, or the GUI holds
"Shoe Material" followed by exactly the panel of `cur`, whose controllers are
the live colour control and, if any, the live pattern control. -/
def GuiShape (s : App) (cur : Option String) : Prop :=
  (s.gui = none ∧ NoPanel s) ∨
  (match cur with
   | none => s.gui = some [shoeMaterialFolder] ∧ NoPanel s
   | some k =>
     EditableKey k ∧ s.textureFolder = some k ∧
     s.textureColor = some (colorController k) ∧
     (s.texturePattern = none ∨ s.texturePattern = some (patternController k)) ∧
     s.gui = some
       [ shoeMaterialFolder,
         { name := k, controllers := colorController k :: s.texturePattern.toList,
           closed := false } ])

/-- The editable part a press event resolves to, if any. -/
def pressedPart (model : Node) : Event → Option String
  | Event.mouseDown target =>
    match getMeshRef declaredMeshes model target with
    | some k =>
      match declaredMeshes.lookup k with
      | some d => if d.editable then some k else none
      | none => none
    | none => none
  | _ => none

/-- The most recently pressed editable part after `events`, starting from
`cur`. -/
def panelAfter (model : Node) : Option String → List Event → Option String
  | cur, [] => cur
  | cur, e :: es =>
    panelAfter model
      (match pressedPart model e with
       | some k => some k
       | none => cur) es

/-- The open panel after one more event. -/
def nextPanel (model : Node) (e : Event) (cur : Option String) : Option String :=
  match pressedPart model e with
  | some k => some k
  | none => cur

/-- What holds of every state reached from a loaded model by events: the
registry and the model are the loaded ones, the descriptor table satisfies
`TableInv`, and the GUI has the shape of the open panel `cur`. -/
structure Inv (model : Node) (s : App) (cur : Option String) : Prop where
  textures : s.textures = declaredTextures
  model : s.model = model
  table : TableInv s.meshes
  gui : GuiShape s cur

/-- A varied session on `shoeScene`: presses, hovers, and every control. -/
def sampleSession : List Event :=
  [ Event.mouseDown (ObjRef.node [3]), Event.mouseOver (ObjRef.node [3]),
    Event.fabricChange "Canvas", Event.mouseDown (ObjRef.node [1, 0]),
    Event.patternChange "Ghost", Event.colorChange 0x123456,
    Event.mouseOut (ObjRef.node [1, 1]), Event.mouseDown (ObjRef.node [2, 1]) ]

/-- The state of `shoeScene` after loading, a press on the mesh "Stripe" and
the choice of `0x123456` in the colour control of the panel. -/
def tealStripeState : App :=
  run (loadModel shoeScene (fun _ => gltfMaterial))
    [Event.mouseDown (ObjRef.node [0]), Event.colorChange 0x123456]

/-- The shape of an existing GUI when the open part panel is `cur`: the GUI
holds "Shoe Material" followed by exactly the panel of `cur` (nothing when
`cur` is `none`), referenced by `textureFolder`, whose controllers are the
live colour control and, if any, the live pattern control. -/
def PanelShape (s : App) (cur : Option String) : Prop :=
  match cur with
  | none => s.gui = some [shoeMaterialFolder] ∧ NoPanel s
  | some k =>
    EditableKey k ∧ s.textureFolder = some k ∧
    s.textureColor = some (colorController k) ∧
    (s.texturePattern = none ∨ s.texturePattern = some (patternController k)) ∧
    s.gui = some
      [ shoeMaterialFolder,
        { name := k, controllers := colorController k :: s.texturePattern.toList,
          closed := false } ]

/-- The panel folder of part `k` once its controllers are removed. -/
def emptyPanel (k : String) : Folder :=
  { name := k, controllers := [], closed := false }

/-- The state after loading `model` and handling `events`. -/
def session (model : Node) (materials : List Nat → Material) (events : List Event) : App :=
  run (loadModel model materials) events

/-- A scene on which `loopThrough` throws: the mesh "Stripe" is handled first,
then the mesh three levels below "Vamp" resolves to "Vamp_a", which is not a
part. -/
def throwingScene : Node :=
  Node.mk "Scene" NodeKind.group
    [ Node.mk "Stripe" NodeKind.mesh [],
      Node.mk "Vamp" NodeKind.group
        [ Node.mk "Vamp_a" NodeKind.group
            [ Node.mk "Vamp_b" NodeKind.group [Node.mk "Vamp_mesh" NodeKind.mesh []] ] ] ]

/-! ## Trees and tables -/

theorem nodeAt_append (model : Node) (p q : List Nat) :
    nodeAt model (p ++ q) = (nodeAt model p).bind (fun n => nodeAt n q) := by
  induction p generalizing model with
  | nil => simp [nodeAt]
  | cons i p ih =>
    simp only [List.cons_append, nodeAt]
    cases model.children[i]? with
    | none => simp
    | some c => simpa using ih c

theorem nodeAt_dropLast (model : Node) (p : List Nat) (n : Node)
    (h : nodeAt model p = some n) : ∃ m, nodeAt model p.dropLast = some m := by
  rcases List.eq_nil_or_concat p with hp | ⟨q, i, hp⟩
  · subst hp
    exact ⟨model, rfl⟩
  · subst hp
    simp only [List.concat_eq_append, List.dropLast_concat] at h ⊢
    rw [nodeAt_append] at h
    cases hq : nodeAt model q with
    | none => simp [hq] at h
    | some m => exact ⟨m, rfl⟩

theorem objName_parent (model : Node) (child par : ObjRef) (n : String)
    (hn : objName model child = some n) (hpar : child.parent = some par) :
    ∃ pn, objName model par = some pn := by
  cases child with
  | scene => simp [ObjRef.parent] at hpar
  | node p =>
    cases p with
    | nil =>
      simp only [ObjRef.parent, Option.some.injEq] at hpar
      subst hpar
      exact ⟨"", rfl⟩
    | cons i p =>
      simp only [ObjRef.parent, Option.some.injEq] at hpar
      subst hpar
      cases hc : nodeAt model (i :: p) with
      | none => simp [objName, hc] at hn
      | some c =>
        obtain ⟨m, hm⟩ := nodeAt_dropLast model (i :: p) c hc
        exact ⟨m.name, by simp [objName, hm]⟩

theorem lookup_eq_none_of_not_mem_keys {α : Type} (table : List (String × α)) (k : String)
    (h : k ∉ keys table) : table.lookup k = none := by
  induction table with
  | nil => rfl
  | cons e rest ih =>
    obtain ⟨k0, v⟩ := e
    simp only [keys, List.map_cons, List.mem_cons, not_or] at h
    have hne : (k == k0) = false := by simpa using h.1
    simp only [List.lookup, hne]
    exact ih h.2

theorem getAllChildrenNamesOfKey_eq (model : Node) (partKey : String) :
    getAllChildrenNamesOfKey model partKey = allLeafMeshNamesOfKey model partKey := by
  unfold getAllChildrenNamesOfKey allLeafMeshNamesOfKey
  cases getObjectByName model partKey with
  | none => rfl
  | some r =>
    obtain ⟨p, main⟩ := r
    by_cases h : main.isMesh <;> simp [h]

theorem getAllChildrenNamesPush_eq (model : Node) (refs : List String) (children : List String) :
    getAllChildrenNamesPush model refs children =
      (refs.mapM (getAllChildrenNamesOfKey model)).map (fun rs => children ++ rs.flatten) := by
  induction refs generalizing children with
  | nil =>
    have h : List.mapM (getAllChildrenNamesOfKey model) [] = some [] := rfl
    rw [h]
    simp [getAllChildrenNamesPush]
  | cons ref rest ih =>
    simp only [getAllChildrenNamesPush, List.mapM_cons]
    cases getAllChildrenNamesOfKey model ref with
    | none => simp
    | some names =>
      simp only [ih]
      cases List.mapM (getAllChildrenNamesOfKey model) rest with
      | none => simp
      | some rs => simp

/-! ## Mesh resolver -/

/-- C1 (as stated) fails: in `nestedPartsScene` the mesh at path `[0, 0]` has
a parent named "Vamp", a key of the table, yet `getMeshRef` returns the
mesh's own name "Laces", which is a key too. -/
theorem getMeshRef_parent_named_counterexample :
    "Vamp" ∈ keys declaredMeshes ∧
    (nodeAt nestedPartsScene [0, 0]).map Node.isMesh = some true ∧
    ancestorName nestedPartsScene (ObjRef.node [0, 0]) 1 = some "Vamp" ∧
    getMeshRef declaredMeshes nestedPartsScene (ObjRef.node [0, 0]) = some "Laces" ∧
    getMeshRef declaredMeshes nestedPartsScene (ObjRef.node [0, 0]) ≠ some "Vamp" := by
  decide

/-- C1 (amended): for every table, scene and key `p`, `getMeshRef` returns
`p` on a node that is named `p`, or whose parent is named `p` while its own
name is not a key, or whose grandparent is named `p` while neither its own
name nor its parent's name is a key: the nearest matching name wins. -/
theorem getMeshRef_nearest_key (meshes : List (String × PartDescriptor)) (model : Node)
    (child : ObjRef) (p : String) (hp : p ∈ keys meshes)
    (h : ancestorName model child 0 = some p ∨
      (∃ n, ancestorName model child 0 = some n ∧ n ∉ keys meshes ∧
        ancestorName model child 1 = some p) ∨
      (∃ n pn, ancestorName model child 0 = some n ∧ n ∉ keys meshes ∧
        ancestorName model child 1 = some pn ∧ pn ∉ keys meshes ∧
        ancestorName model child 2 = some p)) :
    getMeshRef meshes model child = some p := by
  simp only [ancestorName, ancestor] at h
  unfold getMeshRef
  rcases h with h | ⟨n, h0, hn, h1⟩ | ⟨n, pn, h0, hn, h1, hpn, h2⟩
  · simp [h, hp]
  · cases hpar : child.parent with
    | none => simp [hpar] at h1
    | some par =>
      simp only [hpar] at h1
      simp [h0, hn, hpar, h1, hp]
  · cases hpar : child.parent with
    | none => simp [hpar] at h1
    | some par =>
      simp only [hpar] at h1 h2
      cases hgp : par.parent with
      | none => simp [hgp] at h2
      | some gp =>
        simp only [hgp] at h2
        simp [h0, hn, hpar, h1, hpn, hgp, h2]

/-- Witness for `getMeshRef_nearest_key`: the mesh of `deepScene`, two levels
below the node "Vamp". -/
theorem getMeshRef_nearest_key_witness :
    "Vamp" ∈ keys declaredMeshes ∧
    ancestorName deepScene (ObjRef.node [0, 0, 0]) 0 = some "Vamp_mesh" ∧
    ancestorName deepScene (ObjRef.node [0, 0, 0]) 1 = some "Vamp_group" ∧
    ancestorName deepScene (ObjRef.node [0, 0, 0]) 2 = some "Vamp" ∧
    getMeshRef declaredMeshes deepScene (ObjRef.node [0, 0, 0]) = some "Vamp" :=
  ⟨by decide, by decide, by decide, by decide,
    getMeshRef_nearest_key declaredMeshes deepScene (ObjRef.node [0, 0, 0]) "Vamp" (by decide)
      (Or.inr (Or.inr ⟨"Vamp_mesh", "Vamp_group", by decide, by decide, by decide,
        by decide, by decide⟩))⟩

/-- C7 (as stated) fails: in `unnamedScene` none of the names "Sole_mesh",
"Sole_group", "Scene" is a key, yet `getMeshRef` on the mesh does not fail: it
returns the grandparent's name "Scene". -/
theorem getMeshRef_unmatched_counterexample :
    ancestorName unnamedScene (ObjRef.node [0, 0]) 0 = some "Sole_mesh" ∧
    ancestorName unnamedScene (ObjRef.node [0, 0]) 1 = some "Sole_group" ∧
    ancestorName unnamedScene (ObjRef.node [0, 0]) 2 = some "Scene" ∧
    "Sole_mesh" ∉ keys declaredMeshes ∧ "Sole_group" ∉ keys declaredMeshes ∧
    "Scene" ∉ keys declaredMeshes ∧
    getMeshRef declaredMeshes unnamedScene (ObjRef.node [0, 0]) = some "Scene" := by
  decide

/-- C7 (amended): on a node none of whose own, parent's and grandparent's
names is a key, `getMeshRef` yields exactly the grandparent's name: it throws
when there is no grandparent, and otherwise returns a name that is not a key
and has no own entry in the table. -/
theorem getMeshRef_unmatched (meshes : List (String × PartDescriptor)) (model : Node)
    (child : ObjRef) (n : String) (hn : ancestorName model child 0 = some n)
    (h0 : n ∉ keys meshes)
    (h1 : ∀ pn, ancestorName model child 1 = some pn → pn ∉ keys meshes)
    (h2 : ∀ gn, ancestorName model child 2 = some gn → gn ∉ keys meshes) :
    getMeshRef meshes model child = ancestorName model child 2 ∧
    ∀ r, getMeshRef meshes model child = some r →
      r ∉ keys meshes ∧ meshes.lookup r = none := by
  have key : getMeshRef meshes model child = ancestorName model child 2 := by
    simp only [ancestorName, ancestor] at hn h1 ⊢
    unfold getMeshRef
    cases hpar : child.parent with
    | none => simp [hn, h0]
    | some par =>
      obtain ⟨pn, hpn⟩ := objName_parent model child par n hn hpar
      have hk : pn ∉ keys meshes := h1 pn (by simp [hpar, hpn])
      cases hgp : par.parent with
      | none => simp [hn, h0, hpn, hk, hpar, hgp]
      | some gp => simp [hn, h0, hpn, hk, hpar, hgp]
  refine ⟨key, fun r hr => ?_⟩
  have hr2 : r ∉ keys meshes := h2 r (by rw [← key]; exact hr)
  exact ⟨hr2, lookup_eq_none_of_not_mem_keys meshes r hr2⟩

/-- Witness for `getMeshRef_unmatched`: the mesh of `unnamedScene`. -/
theorem getMeshRef_unmatched_witness :
    ancestorName unnamedScene (ObjRef.node [0, 0]) 0 = some "Sole_mesh" ∧
    "Sole_mesh" ∉ keys declaredMeshes ∧
    (getMeshRef declaredMeshes unnamedScene (ObjRef.node [0, 0]) =
        ancestorName unnamedScene (ObjRef.node [0, 0]) 2 ∧
      ∀ r, getMeshRef declaredMeshes unnamedScene (ObjRef.node [0, 0]) = some r →
        r ∉ keys declaredMeshes ∧ declaredMeshes.lookup r = none) :=
  ⟨by decide, by decide,
    getMeshRef_unmatched declaredMeshes unnamedScene (ObjRef.node [0, 0]) "Sole_mesh"
      (by decide) (by decide)
      (fun pn h => by
        have e : pn = "Sole_group" := by
          have h' : some "Sole_group" = some pn := by rw [← h]; decide
          exact (Option.some.inj h').symm
        subst e; decide)
      (fun gn h => by
        have e : gn = "Scene" := by
          have h' : some "Scene" = some gn := by rw [← h]; decide
          exact (Option.some.inj h').symm
        subst e; decide)⟩

/-! ## Shallow walk -/

/-- C6: `getAllChildrenNames` equals its reference definition
`allLeafMeshNames` on every model and argument (for one key: the named node's
own name when it is a mesh, else the names of its immediate children in child
order; for a list of keys: the concatenation of the single-key results in list
order), and the length of a list result is the sum of the single-key lengths. -/
theorem getAllChildrenNames_eq_allLeafMeshNames (model : Node) :
    (∀ meshRef, getAllChildrenNames model meshRef = allLeafMeshNames model meshRef) ∧
    (∀ meshRefs : List String,
      (getAllChildrenNames model (MeshRefArg.list meshRefs)).map List.length =
        (meshRefs.mapM (fun k => getAllChildrenNames model (MeshRefArg.key k))).map
          (fun rs => (rs.map List.length).sum)) := by
  have hfun : getAllChildrenNamesOfKey model = allLeafMeshNamesOfKey model :=
    funext (getAllChildrenNamesOfKey_eq model)
  constructor
  · intro meshRef
    cases meshRef with
    | key k => exact getAllChildrenNamesOfKey_eq model k
    | list ks =>
      simp only [getAllChildrenNames, allLeafMeshNames, getAllChildrenNamesPush_eq, hfun]
      cases List.mapM (allLeafMeshNamesOfKey model) ks <;> simp
  · intro ks
    simp only [getAllChildrenNames, getAllChildrenNamesPush_eq]
    cases List.mapM (getAllChildrenNamesOfKey model) ks with
    | none => rfl
    | some rs => simp [List.length_flatten]

/-! ## Lookup by name -/

theorem getObjectByNameIn_some (cs : List Node) (i : Nat) (v : String) (p : List Nat) (n : Node)
    (h : getObjectByNameIn cs i v = some (p, n)) :
    ∃ j c q, cs[j]? = some c ∧ getObjectByName c v = some (q, n) ∧ p = (i + j) :: q := by
  induction cs generalizing i with
  | nil => simp [getObjectByNameIn] at h
  | cons c cs ih =>
    rw [getObjectByNameIn] at h
    cases hc : getObjectByName c v with
    | some r =>
      obtain ⟨q, m⟩ := r
      simp only [hc, Option.some.injEq, Prod.mk.injEq] at h
      exact ⟨0, c, q, by simp, by rw [hc, h.2], by simp [h.1]⟩
    | none =>
      simp only [hc] at h
      obtain ⟨j, c', q, h1, h2, h3⟩ := ih (i + 1) h
      exact ⟨j + 1, c', q, by simpa using h1, h2, by rw [h3]; congr 1; omega⟩

theorem getObjectByName_sound (model : Node) (v : String) (p : List Nat) (n : Node)
    (h : getObjectByName model v = some (p, n)) : nodeAt model p = some n ∧ n.name = v := by
  induction p generalizing model with
  | nil =>
    obtain ⟨nm, k, cs⟩ := model
    rw [getObjectByName] at h
    by_cases hv : nm = v
    · subst hv
      simp only [if_true, Option.some.injEq, Prod.mk.injEq, true_and] at h
      subst h
      exact ⟨rfl, rfl⟩
    · simp only [hv, if_false] at h
      obtain ⟨j, c, q, _, _, h3⟩ := getObjectByNameIn_some cs 0 v [] n h
      simp at h3
  | cons i p ih =>
    obtain ⟨nm, k, cs⟩ := model
    rw [getObjectByName] at h
    by_cases hv : nm = v
    · simp [hv] at h
    · simp only [hv, if_false] at h
      obtain ⟨j, c, q, h1, h2, h3⟩ := getObjectByNameIn_some cs 0 v (i :: p) n h
      simp only [Nat.zero_add, List.cons.injEq] at h3
      obtain ⟨rfl, rfl⟩ := h3
      have := ih c h2
      simp [nodeAt, Node.children, h1, this]

theorem getObjectByNameIn_isSome (cs : List Node) (i : Nat) (v : String) (j : Nat) (c : Node)
    (hc : cs[j]? = some c) (h : (getObjectByName c v).isSome = true) :
    (getObjectByNameIn cs i v).isSome = true := by
  induction cs generalizing i j with
  | nil => simp at hc
  | cons c0 cs ih =>
    rw [getObjectByNameIn]
    cases h0 : getObjectByName c0 v with
    | some r => simp
    | none =>
      cases j with
      | zero =>
        simp only [List.getElem?_cons_zero, Option.some.injEq] at hc
        subst hc
        simp [h0] at h
      | succ j =>
        simp only [List.getElem?_cons_succ] at hc
        exact ih (i + 1) j hc

theorem getObjectByName_complete (model : Node) (q : List Nat) (n : Node)
    (h : nodeAt model q = some n) : (getObjectByName model n.name).isSome = true := by
  induction q generalizing model with
  | nil =>
    simp only [nodeAt, Option.some.injEq] at h
    subst h
    obtain ⟨nm, k, cs⟩ := model
    simp [getObjectByName, Node.name]
  | cons i q ih =>
    obtain ⟨nm, k, cs⟩ := model
    simp only [nodeAt, Node.children] at h
    cases hc : cs[i]? with
    | none => simp [hc] at h
    | some c =>
      simp only [hc] at h
      rw [getObjectByName]
      by_cases hv : nm = n.name
      · simp [hv]
      · simp only [hv, if_false]
        exact getObjectByNameIn_isSome cs 0 n.name i c hc (ih c h)

theorem mem_leafMeshes (model : Node) (partKey : String) (q : List Nat)
    (h : q ∈ leafMeshes model partKey) :
    ∃ p main, getObjectByName model partKey = some (p, main) ∧
      ((main.isMesh = true ∧ q = p) ∨
        (main.isMesh = false ∧ ∃ i c, main.children[i]? = some c ∧ c.isMesh = true ∧
          q = p ++ [i])) := by
  unfold leafMeshes at h
  cases hg : getObjectByName model partKey with
  | none => simp [hg] at h
  | some r =>
    obtain ⟨p, main⟩ := r
    refine ⟨p, main, rfl, ?_⟩
    simp only [hg] at h
    by_cases hm : main.isMesh = true
    · simp only [hm, if_true, List.mem_singleton] at h
      exact Or.inl ⟨hm, h⟩
    · simp only [hm, Bool.false_eq_true, if_false, List.mem_map, List.mem_filter,
        List.mem_range] at h
      obtain ⟨i, ⟨_, hi⟩, rfl⟩ := h
      refine Or.inr ⟨by simpa using hm, i, ?_⟩
      cases hc : main.children[i]? with
      | none => simp [hc] at hi
      | some c => exact ⟨c, rfl, by simpa [hc] using hi, rfl⟩

theorem firstOfItsName_spec (model : Node) (q : List Nat) (c : Node)
    (hc : nodeAt model q = some c) (h : firstOfItsName model q = true) :
    getObjectByName model c.name = some (q, c) := by
  unfold firstOfItsName at h
  simp only [hc] at h
  cases hg : getObjectByName model c.name with
  | none => simp [hg] at h
  | some r =>
    obtain ⟨q', c'⟩ := r
    simp only [hg, Option.map_some', beq_iff_eq, Option.some.injEq] at h
    subst h
    have := (getObjectByName_sound model c.name q' c' hg).1
    rw [hc] at this
    simp only [Option.some.injEq] at this
    rw [this]

theorem child_nodeAt (model : Node) (v : String) (p : List Nat) (main : Node) (i : Nat) (c : Node)
    (hg : getObjectByName model v = some (p, main)) (hc : main.children[i]? = some c) :
    nodeAt model (p ++ [i]) = some c := by
  rw [nodeAt_append, (getObjectByName_sound model v p main hg).1]
  simp [nodeAt, hc]

theorem setMeshesColorStep_spec (color : Option Nat) (nm : String) (s : App)
    (h : (getObjectByName s.model nm).isSome = true) :
    ∃ s', setMeshesColorStep color nm s = Outcome.done s' ∧ s'.model = s.model ∧
      s'.meshes = s.meshes ∧ s'.texturesUpdated = s.texturesUpdated ∧
      (∀ q, (s.materials q).color = some (newColor color) →
        (s'.materials q).color = some (newColor color)) ∧
      (∀ q n, getObjectByName s.model nm = some (q, n) → n.isMesh = true →
        (s'.materials q).color = some (newColor color)) := by
  unfold setMeshesColorStep
  cases hg : getObjectByName s.model nm with
  | none => simp [hg] at h
  | some r =>
    obtain ⟨p, child⟩ := r
    by_cases hm : child.isMesh = true
    · refine ⟨setMat s p { s.materials p with color := some (newColor color) },
        by simp only [hm, if_true], rfl, rfl, rfl, ?_, ?_⟩
      · intro q hq
        by_cases hqp : q = p <;> simp [setMat, hqp, hq]
      · intro q n hqn _
        simp only [Option.some.injEq, Prod.mk.injEq] at hqn
        simp [setMat, hqn.1]
    · refine ⟨s, by simp only [hm, Bool.false_eq_true, if_false], rfl, rfl, rfl, fun q hq => hq, ?_⟩
      intro q n hqn hn
      simp only [Option.some.injEq, Prod.mk.injEq] at hqn
      rw [hqn.2] at hm
      exact absurd hn hm

theorem forEach_setMeshesColorStep (color : Option Nat) (names : List String) (s : App)
    (hall : ∀ nm ∈ names, (getObjectByName s.model nm).isSome = true) :
    ∃ s', forEach names (setMeshesColorStep color) s = Outcome.done s' ∧ s'.model = s.model ∧
      s'.meshes = s.meshes ∧ s'.texturesUpdated = s.texturesUpdated ∧
      (∀ q, (s.materials q).color = some (newColor color) →
        (s'.materials q).color = some (newColor color)) ∧
      (∀ nm ∈ names, ∀ q n, getObjectByName s.model nm = some (q, n) → n.isMesh = true →
        (s'.materials q).color = some (newColor color)) := by
  induction names generalizing s with
  | nil => exact ⟨s, rfl, rfl, rfl, rfl, fun _ h => h, fun _ h => by simp at h⟩
  | cons nm rest ih =>
    obtain ⟨s1, h1, hmod1, hmesh1, htu1, hpres1, hset1⟩ :=
      setMeshesColorStep_spec color nm s (hall nm (by simp))
    obtain ⟨s2, h2, hmod2, hmesh2, htu2, hpres2, hset2⟩ :=
      ih s1 (fun n hn => by rw [hmod1]; exact hall n (by simp [hn]))
    refine ⟨s2, by simp [forEach, h1, Outcome.andThen, h2], by rw [hmod2, hmod1],
      by rw [hmesh2, hmesh1], by rw [htu2, htu1], fun q hq => hpres2 q (hpres1 q hq), ?_⟩
    intro n hn q nd hg hm
    rcases List.mem_cons.mp hn with rfl | hn
    · exact hpres2 q (hset1 q nd hg hm)
    · exact hset2 n hn q nd (by rw [hmod1]; exact hg) hm

theorem names_resolve (model : Node) (partKey : String) (names : List String)
    (h : getAllChildrenNamesOfKey model partKey = some names) :
    ∀ nm ∈ names, (getObjectByName model nm).isSome = true := by
  unfold getAllChildrenNamesOfKey at h
  cases hg : getObjectByName model partKey with
  | none => simp [hg] at h
  | some r =>
    obtain ⟨p, main⟩ := r
    simp only [hg] at h
    have hs := getObjectByName_sound model partKey p main hg
    by_cases hm : main.isMesh = true
    · simp only [hm, if_true, Option.some.injEq] at h
      subst h
      intro nm hnm
      simp only [List.mem_singleton] at hnm
      subst hnm
      exact getObjectByName_complete model p main hs.1
    · simp only [hm, Bool.false_eq_true, if_false, Option.some.injEq] at h
      subst h
      intro nm hnm
      simp only [List.mem_map] at hnm
      obtain ⟨c, hc, rfl⟩ := hnm
      obtain ⟨i, hi⟩ := List.getElem?_of_mem hc
      exact getObjectByName_complete model (p ++ [i]) c (child_nodeAt model partKey p main i c hg hi)

/-- C2 (amended): for every state and RGB colour `c` (`0x000000` to
`0xffffff`), when every leaf mesh of the part is the first object of the model
with its name, then after
`setMeshesColor(partKey, model, c)` every leaf mesh of the part has colour
exactly `c`; and when the part has a named node the call ends normally and
dispatches "texturesUpdated" once. -/
theorem setMeshesColor_leaves (s : App) (partKey : String) (c : Nat) (hc : c ≤ 0xffffff)
    (hres : ∀ q ∈ leafMeshes s.model partKey, firstOfItsName s.model q = true) :
    (∀ q ∈ leafMeshes s.model partKey,
      ((setMeshesColor (MeshRefArg.key partKey) (some c) s).state.materials q).color = some c) ∧
    ((getObjectByName s.model partKey).isSome = true →
      (setMeshesColor (MeshRefArg.key partKey) (some c) s).isDone = true ∧
      (setMeshesColor (MeshRefArg.key partKey) (some c) s).state.texturesUpdated =
        s.texturesUpdated + 1) := by
  unfold setMeshesColor
  simp only [getAllChildrenNames]
  cases hnames : getAllChildrenNamesOfKey s.model partKey with
  | none =>
    have hg : getObjectByName s.model partKey = none := by
      unfold getAllChildrenNamesOfKey at hnames
      cases hg : getObjectByName s.model partKey with
      | none => rfl
      | some r =>
        obtain ⟨p, main⟩ := r
        simp only [hg] at hnames
        split at hnames <;> simp at hnames
    constructor
    · intro q hq
      simp [leafMeshes, hg] at hq
    · intro h
      simp [hg] at h
  | some names =>
    obtain ⟨s', hs', hmod, _, htu, _, hset⟩ :=
      forEach_setMeshesColorStep (some c) names s (names_resolve s.model partKey names hnames)
    have hnc : newColor (some c) = c := by
      simp only [newColor, setHex]
      exact Nat.mod_eq_of_lt (by omega)
    rw [hnc] at hset
    simp only [hs', Outcome.andThen, Outcome.state, Outcome.isDone, dispatchTexturesUpdated, htu,
      implies_true, and_self, and_true]
    intro q hq
    obtain ⟨p, main, hg, hcase⟩ := mem_leafMeshes s.model partKey q hq
    have hsound := getObjectByName_sound s.model partKey p main hg
    unfold getAllChildrenNamesOfKey at hnames
    simp only [hg] at hnames
    rcases hcase with ⟨hm, rfl⟩ | ⟨hm, i, ch, hch, hchm, rfl⟩
    · simp only [hm, if_true, Option.some.injEq] at hnames
      subst hnames
      exact hset main.name (by simp) q main (by rw [hsound.2]; exact hg) hm
    · simp only [hm, Bool.false_eq_true, if_false, Option.some.injEq] at hnames
      subst hnames
      have hnode := child_nodeAt s.model partKey p main i ch hg hch
      have hfirst := firstOfItsName_spec s.model (p ++ [i]) ch hnode (hres _ hq)
      exact hset ch.name (List.mem_map.mpr ⟨ch, List.getElem?_mem hch, rfl⟩) _ ch hfirst hchm

theorem setProp_some {α : Type} (t : List (String × α)) (k : String) (f : α → α)
    (t' : List (String × α)) (h : setProp t k f = some t') :
    ∃ v, t.lookup k = some v ∧ t'.lookup k = some (f v) ∧
      (∀ k', k' ≠ k → t'.lookup k' = t.lookup k') ∧ keys t' = keys t := by
  induction t generalizing t' with
  | nil => simp [setProp] at h
  | cons e rest ih =>
    obtain ⟨k0, v0⟩ := e
    rw [setProp] at h
    by_cases hk : k0 = k
    · subst hk
      simp only [if_true, Option.some.injEq] at h
      subst h
      refine ⟨v0, by simp [List.lookup], by simp [List.lookup], ?_, by simp [keys]⟩
      intro k' hk'
      have : (k' == k0) = false := by simpa using hk'
      simp [List.lookup, this]
    · simp only [hk, if_false] at h
      cases hr : setProp rest k f with
      | none => simp [hr] at h
      | some r =>
        simp only [hr, Option.map_some', Option.some.injEq] at h
        subst h
        obtain ⟨v, h1, h2, h3, h4⟩ := ih r hr
        have hne : (k == k0) = false := by simpa using fun e => hk e.symm
        refine ⟨v, by simp [List.lookup, hne, h1], by simp [List.lookup, hne, h2], ?_, ?_⟩
        · intro k' hk'
          by_cases e : (k' == k0) = true
          · simp [List.lookup, e]
          · have e' : (k' == k0) = false := by simpa using e
            simp [List.lookup, e', h3 k' hk']
        · simp only [keys, List.map_cons] at h4 ⊢
          rw [h4]

theorem setProp_isSome {α : Type} (t : List (String × α)) (k : String) (f : α → α)
    (hk : k ∈ keys t) : ∃ t', setProp t k f = some t' := by
  induction t with
  | nil => simp [keys] at hk
  | cons e rest ih =>
    obtain ⟨k0, v0⟩ := e
    rw [setProp]
    by_cases h0 : k0 = k
    · exact ⟨(k0, f v0) :: rest, by simp [h0]⟩
    · simp only [keys, List.map_cons, List.mem_cons] at hk
      rcases hk with hk | hk
      · exact absurd hk.symm h0
      · obtain ⟨r, hr⟩ := ih hk
        exact ⟨(k0, v0) :: r, by simp [h0, hr]⟩

theorem getProp_of_lookup {α : Type} (t : List (String × α)) (d : α) (k : String) (v : α)
    (h : t.lookup k = some v) : getProp t d k = some v := by
  simp [getProp, h]

theorem hasMaterial_of_isMesh (n : Node) (h : n.isMesh = true) : n.hasMaterial = true := by
  unfold Node.isMesh at h
  unfold Node.hasMaterial
  cases hk : n.kind <;> simp_all

theorem setMeshesMapStep_spec (texture : Option String) (nm : String) (s : App)
    (q : List Nat) (n : Node) (hg : getObjectByName s.model nm = some (q, n))
    (hm : n.hasMaterial = true) :
    ∃ s', setMeshesMapStep texture nm s = Outcome.done s' ∧ s'.model = s.model ∧
      s'.meshes = s.meshes ∧ s'.texturesUpdated = s.texturesUpdated ∧
      (∀ r, (s.materials r).map = (if truthyStr texture then some (getTexture texture) else none) →
        (s'.materials r).map = (if truthyStr texture then some (getTexture texture) else none)) ∧
      (s'.materials q).map = (if truthyStr texture then some (getTexture texture) else none) := by
  unfold setMeshesMapStep
  refine ⟨setMat s q { s.materials q with
      map := if truthyStr texture then some (getTexture texture) else none },
    by simp only [hg, hm, if_true], rfl, rfl, rfl, ?_, by simp [setMat]⟩
  intro r hr
  by_cases hrq : r = q
  · simp [setMat, hrq]
  · simp [setMat, hrq, hr]

theorem forEach_setMeshesMapStep (texture : Option String) (names : List String) (s : App)
    (hall : ∀ nm ∈ names, ∃ q n, getObjectByName s.model nm = some (q, n) ∧
      n.hasMaterial = true) :
    ∃ s', forEach names (setMeshesMapStep texture) s = Outcome.done s' ∧ s'.model = s.model ∧
      s'.meshes = s.meshes ∧ s'.texturesUpdated = s.texturesUpdated ∧
      (∀ r, (s.materials r).map = (if truthyStr texture then some (getTexture texture) else none) →
        (s'.materials r).map = (if truthyStr texture then some (getTexture texture) else none)) ∧
      (∀ nm ∈ names, ∀ q n, getObjectByName s.model nm = some (q, n) →
        (s'.materials q).map = (if truthyStr texture then some (getTexture texture) else none)) := by
  induction names generalizing s with
  | nil => exact ⟨s, rfl, rfl, rfl, rfl, fun _ h => h, fun _ h => by simp at h⟩
  | cons nm rest ih =>
    obtain ⟨q0, n0, hg0, hm0⟩ := hall nm (by simp)
    obtain ⟨s1, h1, hmod1, hmesh1, htu1, hpres1, hset1⟩ :=
      setMeshesMapStep_spec texture nm s q0 n0 hg0 hm0
    obtain ⟨s2, h2, hmod2, hmesh2, htu2, hpres2, hset2⟩ :=
      ih s1 (fun n hn => by rw [hmod1]; exact hall n (by simp [hn]))
    refine ⟨s2, by simp [forEach, h1, Outcome.andThen, h2], by rw [hmod2, hmod1],
      by rw [hmesh2, hmesh1], by rw [htu2, htu1], fun q hq => hpres2 q (hpres1 q hq), ?_⟩
    intro n hn q nd hg
    rcases List.mem_cons.mp hn with rfl | hn
    · rw [hg0] at hg
      simp only [Option.some.injEq, Prod.mk.injEq] at hg
      rw [← hg.1]
      exact hpres2 q0 hset1
    · exact hset2 n hn q nd (by rw [hmod1]; exact hg)

theorem getAllChildrenNamesOfKey_none (model : Node) (partKey : String)
    (h : getAllChildrenNamesOfKey model partKey = none) :
    getObjectByName model partKey = none := by
  unfold getAllChildrenNamesOfKey at h
  cases hg : getObjectByName model partKey with
  | none => rfl
  | some r =>
    obtain ⟨p, main⟩ := r
    simp only [hg] at h
    split at h <;> simp at h

theorem mem_partChildren (model : Node) (partKey : String) (p : List Nat) (main : Node)
    (i : Nat) (c : Node) (hg : getObjectByName model partKey = some (p, main))
    (hm : main.isMesh = false) (hc : main.children[i]? = some c) :
    p ++ [i] ∈ partChildren model partKey := by
  unfold partChildren
  simp only [hg, hm, Bool.false_eq_true, if_false, List.mem_map, List.mem_range]
  refine ⟨i, ?_, rfl⟩
  by_contra hlt
  have : main.children[i]? = none := List.getElem?_eq_none (by omega)
  rw [this] at hc
  exact absurd hc (by simp)

theorem setMeshesMap_leaves (s : App) (partKey : String) (texture : Option String)
    (hres : ∀ q ∈ partChildren s.model partKey,
      hasMaterialAt s.model q = true ∧ firstOfItsName s.model q = true) :
    (∀ q ∈ leafMeshes s.model partKey,
      ((setMeshesMap (MeshRefArg.key partKey) texture s).state.materials q).map =
        (if truthyStr texture then some (getTexture texture) else none)) ∧
    (setMeshesMap (MeshRefArg.key partKey) texture s).state.meshes = s.meshes ∧
    ((getObjectByName s.model partKey).isSome = true →
      (setMeshesMap (MeshRefArg.key partKey) texture s).isDone = true ∧
      (setMeshesMap (MeshRefArg.key partKey) texture s).state.texturesUpdated =
        s.texturesUpdated + 1) := by
  unfold setMeshesMap
  simp only [getAllChildrenNames]
  cases hnames : getAllChildrenNamesOfKey s.model partKey with
  | none =>
    have hg := getAllChildrenNamesOfKey_none s.model partKey hnames
    refine ⟨?_, rfl, ?_⟩
    · intro q hq
      simp [leafMeshes, hg] at hq
    · intro h
      simp [hg] at h
  | some names =>
    have hall : ∀ nm ∈ names, ∃ q n, getObjectByName s.model nm = some (q, n) ∧
        n.hasMaterial = true := by
      unfold getAllChildrenNamesOfKey at hnames
      cases hg : getObjectByName s.model partKey with
      | none => simp [hg] at hnames
      | some r =>
        obtain ⟨p, main⟩ := r
        simp only [hg] at hnames
        have hsound := getObjectByName_sound s.model partKey p main hg
        by_cases hm : main.isMesh = true
        · simp only [hm, if_true, Option.some.injEq] at hnames
          subst hnames
          intro nm hnm
          simp only [List.mem_singleton] at hnm
          subst hnm
          exact ⟨p, main, by rw [hsound.2]; exact hg, hasMaterial_of_isMesh main hm⟩
        · have hm' : main.isMesh = false := by simpa using hm
          simp only [hm, Bool.false_eq_true, if_false, Option.some.injEq] at hnames
          subst hnames
          intro nm hnm
          simp only [List.mem_map] at hnm
          obtain ⟨c, hc, rfl⟩ := hnm
          obtain ⟨i, hi⟩ := List.getElem?_of_mem hc
          have hnode := child_nodeAt s.model partKey p main i c hg hi
          obtain ⟨hmat, hfirst⟩ := hres _ (mem_partChildren s.model partKey p main i c hg hm' hi)
          refine ⟨p ++ [i], c, firstOfItsName_spec s.model _ c hnode hfirst, ?_⟩
          unfold hasMaterialAt materialSlot at hmat
          simp only [hnode] at hmat
          by_contra hno
          simp [hno] at hmat
    obtain ⟨s', hs', hmod, hmesh, htu, _, hset⟩ := forEach_setMeshesMapStep texture names s hall
    simp only [hs', Outcome.andThen, Outcome.state, Outcome.isDone, dispatchTexturesUpdated, htu,
      hmesh, implies_true, and_self, and_true]
    intro q hq
    obtain ⟨p, main, hg, hcase⟩ := mem_leafMeshes s.model partKey q hq
    have hsound := getObjectByName_sound s.model partKey p main hg
    unfold getAllChildrenNamesOfKey at hnames
    simp only [hg] at hnames
    rcases hcase with ⟨hm, rfl⟩ | ⟨hm, i, ch, hch, hchm, rfl⟩
    · simp only [hm, if_true, Option.some.injEq] at hnames
      subst hnames
      exact hset main.name (by simp) q main (by rw [hsound.2]; exact hg)
    · simp only [hm, Bool.false_eq_true, if_false, Option.some.injEq] at hnames
      subst hnames
      have hnode := child_nodeAt s.model partKey p main i ch hg hch
      obtain ⟨_, hfirst⟩ := hres _ (mem_partChildren s.model partKey p main i ch hg hm hch)
      have hfirst' := firstOfItsName_spec s.model (p ++ [i]) ch hnode hfirst
      exact hset ch.name (List.mem_map.mpr ⟨ch, List.getElem?_mem hch, rfl⟩) _ ch hfirst'

/-- C10 (amended): for every state and part key, when every immediate child
of the part's node (if that node is not itself a mesh) has a material and is
the first object of the model with its name, the pattern callback with "None"
leaves the diffuse map of every leaf mesh of the part `null` and sets the
descriptor's pattern to "None"; when the part has a named node the callback
ends normally and dispatches "texturesUpdated" once. -/
theorem texturePatternOnChange_none_clears (s : App) (partKey : String)
    (hk : partKey ∈ keys s.meshes)
    (hres : ∀ q ∈ partChildren s.model partKey,
      hasMaterialAt s.model q = true ∧ firstOfItsName s.model q = true) :
    (∀ q ∈ leafMeshes s.model partKey,
      ((texturePatternOnChange partKey "None" s).state.materials q).map = none) ∧
    ((texturePatternOnChange partKey "None" s).state.meshes.lookup partKey).map
      PartDescriptor.pattern = some (some "None") ∧
    ((getObjectByName s.model partKey).isSome = true →
      (texturePatternOnChange partKey "None" s).isDone = true ∧
      (texturePatternOnChange partKey "None" s).state.texturesUpdated =
        s.texturesUpdated + 1) := by
  obtain ⟨t', ht'⟩ := setProp_isSome s.meshes partKey
    (fun d => { d with pattern := some "None" }) hk
  obtain ⟨v, _, hlk, _, _⟩ := setProp_some s.meshes partKey _ t' ht'
  have hgp := getProp_of_lookup t' noDescriptor partKey _ hlk
  have hmain := setMeshesMap_leaves { s with meshes := t' } partKey none hres
  unfold texturePatternOnChange
  simp only [ht', hgp, if_true]
  obtain ⟨h1, h2, h3⟩ := hmain
  refine ⟨?_, ?_, h3⟩
  · intro q hq
    simpa [truthyStr] using h1 q hq
  · rw [h2]
    simp [hlk]

/-! ## Bulk colour and pattern -/

/-- C2 (as stated) fails: in `duplicateNameScene` the only leaf mesh of part
"Laces" is at path `[1, 0]`; `setMeshesColor("Laces", model, 0x00ff00)` ends
normally, yet that mesh keeps the colour `0xffffff`, because its name "Panel"
is looked up by name and found first at path `[0]`. -/
theorem setMeshesColor_duplicate_name_counterexample :
    [1, 0] ∈ leafMeshes (loadModel duplicateNameScene (fun _ => gltfMaterial)).model "Laces" ∧
    (setMeshesColor (MeshRefArg.key "Laces") (some 0x00ff00)
      (loadModel duplicateNameScene (fun _ => gltfMaterial))).isDone = true ∧
    ((setMeshesColor (MeshRefArg.key "Laces") (some 0x00ff00)
      (loadModel duplicateNameScene (fun _ => gltfMaterial))).state.materials [1, 0]).color
      = some 0xffffff := by
  decide

/-- Witness for `setMeshesColor_leaves`: part "Laces" of `shoeScene`, whose
leaves are `0xffffff` after loading, receives `0x00ff00`. -/
theorem setMeshesColor_leaves_witness :
    0x00ff00 ≤ 0xffffff ∧
    (∀ q ∈ leafMeshes (loadModel shoeScene (fun _ => gltfMaterial)).model "Laces",
      firstOfItsName (loadModel shoeScene (fun _ => gltfMaterial)).model q = true) ∧
    (∀ q ∈ leafMeshes (loadModel shoeScene (fun _ => gltfMaterial)).model "Laces",
      ((loadModel shoeScene (fun _ => gltfMaterial)).materials q).color = some 0xffffff) ∧
    ((∀ q ∈ leafMeshes (loadModel shoeScene (fun _ => gltfMaterial)).model "Laces",
      ((setMeshesColor (MeshRefArg.key "Laces") (some 0x00ff00)
        (loadModel shoeScene (fun _ => gltfMaterial))).state.materials q).color
        = some 0x00ff00) ∧
    ((getObjectByName (loadModel shoeScene (fun _ => gltfMaterial)).model "Laces").isSome = true →
      (setMeshesColor (MeshRefArg.key "Laces") (some 0x00ff00)
        (loadModel shoeScene (fun _ => gltfMaterial))).isDone = true ∧
      (setMeshesColor (MeshRefArg.key "Laces") (some 0x00ff00)
        (loadModel shoeScene (fun _ => gltfMaterial))).state.texturesUpdated =
        (loadModel shoeScene (fun _ => gltfMaterial)).texturesUpdated + 1)) :=
  ⟨by decide, by decide, by decide,
    setMeshesColor_leaves (loadModel shoeScene (fun _ => gltfMaterial)) "Laces" 0x00ff00
      (by decide) (by decide)⟩

/-- C10 (as stated) fails: in `duplicateNameScene` the leaf mesh of part
"Vamp" at path `[2, 0]` carries the camouflage map after loading; the pattern
callback with "None" ends normally, yet that mesh keeps its map, because its
name "Panel" is found first at path `[0]`. -/
theorem texturePatternOnChange_duplicate_name_counterexample :
    "Vamp" ∈ keys (loadModel duplicateNameScene (fun _ => gltfMaterial)).meshes ∧
    [2, 0] ∈ leafMeshes (loadModel duplicateNameScene (fun _ => gltfMaterial)).model "Vamp" ∧
    (texturePatternOnChange "Vamp" "None"
      (loadModel duplicateNameScene (fun _ => gltfMaterial))).isDone = true ∧
    ((texturePatternOnChange "Vamp" "None"
      (loadModel duplicateNameScene (fun _ => gltfMaterial))).state.materials [2, 0]).map
      = some { src := some camo } := by
  decide

/-- Witness for `texturePatternOnChange_none_clears`: part "Vamp" of
`shoeScene`. -/
theorem texturePatternOnChange_none_clears_witness :
    "Vamp" ∈ keys (loadModel shoeScene (fun _ => gltfMaterial)).meshes ∧
    (∀ q ∈ partChildren (loadModel shoeScene (fun _ => gltfMaterial)).model "Vamp",
      hasMaterialAt (loadModel shoeScene (fun _ => gltfMaterial)).model q = true ∧
      firstOfItsName (loadModel shoeScene (fun _ => gltfMaterial)).model q = true) ∧
    (∀ q ∈ leafMeshes (loadModel shoeScene (fun _ => gltfMaterial)).model "Vamp",
      ((texturePatternOnChange "Vamp" "None"
        (loadModel shoeScene (fun _ => gltfMaterial))).state.materials q).map = none) :=
  ⟨by decide, by decide,
    (texturePatternOnChange_none_clears (loadModel shoeScene (fun _ => gltfMaterial)) "Vamp"
      (by decide) (by decide)).1⟩

/-! ## Black is falsy -/

/-- C4, evaluated at the failing input: in `blackStripeState`, once the
pointer is over the mesh "Stripe" (so that it carries the preview material),
the node resolves to part "Stripe" whose descriptor colour is `0x000000`;
`setMaterial` on it ends normally and leaves the material colour `0xffffff`,
not `0x000000`. -/
theorem setMaterial_black_not_applied :
    getMeshRef blackStripeState.meshes blackStripeState.model (ObjRef.node [0]) = some "Stripe" ∧
    (getProp blackStripeState.meshes noDescriptor "Stripe").map PartDescriptor.color
      = some (some 0x000000) ∧
    (setMaterial (ChildArg.name "Stripe")
      (run blackStripeState [Event.mouseOver (ObjRef.node [0])])).isDone = true ∧
    ((setMaterial (ChildArg.name "Stripe")
      (run blackStripeState [Event.mouseOver (ObjRef.node [0])])).state.materials [0]).color
      = some 0xffffff := by
  decide

/-- C3, evaluated at the failing input: in `blackStripeState` the editable
part "Stripe" has descriptor colour `0x000000` and its leaf mesh a
`MeshPhongMaterial` of colour `0x000000`; after hover-enter and hover-exit on
that mesh the material is a `MeshPhongMaterial` of colour `0xffffff`. -/
theorem hover_roundtrip_black_not_restored :
    (getProp blackStripeState.meshes noDescriptor "Stripe").map PartDescriptor.editable
      = some true ∧
    leafMeshes blackStripeState.model "Stripe" = [[0]] ∧
    blackStripeState.materials [0] =
      { type := "MeshPhongMaterial", color := some 0x000000, map := none, normalMap := none } ∧
    (run blackStripeState
      [Event.mouseOver (ObjRef.node [0]), Event.mouseOut (ObjRef.node [0])]).materials [0] =
      { type := "MeshPhongMaterial", color := some 0xffffff, map := none, normalMap := none } := by
  decide

/-! ## Operations that leave the tables and the GUI alone -/

theorem quiet_done : Quiet Outcome.done := fun _ => ⟨rfl, rfl, rfl⟩

theorem quiet_threw : Quiet Outcome.threw := fun _ => ⟨rfl, rfl, rfl⟩

theorem quiet_andThen (f g : App → Outcome) (hf : Quiet f) (hg : Quiet g) :
    Quiet (fun s => (f s).andThen g) := by
  intro s
  have h1 := hf s
  show frame ((f s).andThen g).state = frame s ∧ ((f s).andThen g).state.meshes = s.meshes ∧
    ((f s).andThen g).state.shoeFabric = s.shoeFabric
  cases hfs : f s with
  | done s1 =>
    rw [hfs] at h1
    simp only [Outcome.state] at h1
    have h2 := hg s1
    exact ⟨h2.1.trans h1.1, h2.2.1.trans h1.2.1, h2.2.2.trans h1.2.2⟩
  | threw s1 =>
    rw [hfs] at h1
    exact h1

theorem quiet_forEach {α : Type} (xs : List α) (f : α → App → Outcome)
    (hf : ∀ x, Quiet (f x)) : Quiet (forEach xs f) := by
  induction xs with
  | nil => exact quiet_done
  | cons x xs ih => exact quiet_andThen (f x) (forEach xs f) (hf x) ih

theorem quiet_setMat (p : List Nat) (m : App → Material) :
    Quiet (fun s => Outcome.done (setMat s p (m s))) := fun _ => ⟨rfl, rfl, rfl⟩

theorem quiet_setMaterial (child : ChildArg) : Quiet (setMaterial child) := by
  intro s
  unfold setMaterial
  repeat' split
  all_goals try exact ⟨rfl, rfl, rfl⟩
  all_goals
    dsimp only
    repeat' split
    all_goals exact ⟨rfl, rfl, rfl⟩

theorem quiet_setShaderMaterial (childName : String) : Quiet (setShaderMaterial childName) := by
  intro s
  unfold setShaderMaterial
  repeat' split
  all_goals exact ⟨rfl, rfl, rfl⟩

theorem quiet_setMeshesColorStep (color : Option Nat) (childName : String) :
    Quiet (setMeshesColorStep color childName) := by
  intro s
  unfold setMeshesColorStep
  repeat' split
  all_goals exact ⟨rfl, rfl, rfl⟩

theorem quiet_setMeshesMapStep (texture : Option String) (childName : String) :
    Quiet (setMeshesMapStep texture childName) := by
  intro s
  unfold setMeshesMapStep
  repeat' split
  all_goals exact ⟨rfl, rfl, rfl⟩

theorem quiet_dispatch : Quiet (fun s => Outcome.done (dispatchTexturesUpdated s)) :=
  fun _ => ⟨rfl, rfl, rfl⟩

theorem quiet_setMeshesColor (meshRef : MeshRefArg) (color : Option Nat) :
    Quiet (setMeshesColor meshRef color) := by
  intro s
  unfold setMeshesColor
  cases getAllChildrenNames s.model meshRef with
  | none => exact ⟨rfl, rfl, rfl⟩
  | some names =>
    exact quiet_andThen _ _ (quiet_forEach names _ (quiet_setMeshesColorStep color))
      quiet_dispatch s

theorem quiet_setMeshesMap (meshRef : MeshRefArg) (texture : Option String) :
    Quiet (setMeshesMap meshRef texture) := by
  intro s
  unfold setMeshesMap
  cases getAllChildrenNames s.model meshRef with
  | none => exact ⟨rfl, rfl, rfl⟩
  | some names =>
    exact quiet_andThen _ _ (quiet_forEach names _ (quiet_setMeshesMapStep texture))
      quiet_dispatch s

theorem quiet_forEachMeshes (meshRef : MeshRefArg) (func : String → App → Outcome)
    (hf : ∀ x, Quiet (func x)) : Quiet (forEachMeshes meshRef func) := by
  intro s
  unfold forEachMeshes
  split
  · exact ⟨rfl, rfl, rfl⟩
  · exact quiet_forEach _ func hf s

theorem quiet_onMouseOver (target : ObjRef) : Quiet (onMouseOver target) := by
  intro s
  unfold onMouseOver
  repeat' split
  all_goals first
    | exact ⟨rfl, rfl, rfl⟩
    | exact quiet_forEachMeshes _ _ quiet_setShaderMaterial s

theorem quiet_onMouseOut (target : ObjRef) : Quiet (onMouseOut target) := by
  intro s
  unfold onMouseOut
  repeat' split
  all_goals first
    | exact ⟨rfl, rfl, rfl⟩
    | exact quiet_forEachMeshes _ _ (fun x => quiet_setMaterial (ChildArg.name x)) s

theorem quiet_getMeshes (p : List Nat) (child : Node) : Quiet (getMeshes p child) :=
  quiet_forEach _ _ (fun _ => quiet_setMaterial _)

theorem quiet_loopThrough : Quiet loopThrough := by
  intro s
  exact quiet_forEach _ (fun r : List Nat × Node => getMeshes r.1 r.2)
    (fun r => quiet_getMeshes r.1 r.2) s

/-! ## Writes into the descriptor table -/

theorem setProp_mem {α : Type} (t : List (String × α)) (k : String) (f : α → α)
    (t' : List (String × α)) (h : setProp t k f = some t') :
    ∀ e ∈ t', e ∈ t ∨ ∃ v, (k, v) ∈ t ∧ e = (k, f v) := by
  induction t generalizing t' with
  | nil => simp [setProp] at h
  | cons e0 rest ih =>
    obtain ⟨k0, v0⟩ := e0
    rw [setProp] at h
    by_cases hk : k0 = k
    · subst hk
      simp only [if_true, Option.some.injEq] at h
      subst h
      intro e he
      rcases List.mem_cons.mp he with rfl | he
      · exact Or.inr ⟨v0, by simp, rfl⟩
      · exact Or.inl (by simp [he])
    · simp only [hk, if_false] at h
      cases hr : setProp rest k f with
      | none => simp [hr] at h
      | some r =>
        simp only [hr, Option.map_some', Option.some.injEq] at h
        subst h
        intro e he
        rcases List.mem_cons.mp he with rfl | he
        · exact Or.inl (by simp)
        · rcases ih r hr e he with h1 | ⟨v, hv, rfl⟩
          · exact Or.inl (by simp [h1])
          · exact Or.inr ⟨v, by simp [hv], rfl⟩

theorem setProp_flags (t : List (String × PartDescriptor)) (k : String)
    (f : PartDescriptor → PartDescriptor) (t' : List (String × PartDescriptor))
    (hf : ∀ d, (f d).editable = d.editable ∧ (f d).isFabric = d.isFabric)
    (h : setProp t k f = some t') : flags t' = flags t := by
  induction t generalizing t' with
  | nil => simp [setProp] at h
  | cons e0 rest ih =>
    obtain ⟨k0, v0⟩ := e0
    rw [setProp] at h
    by_cases hk : k0 = k
    · simp only [hk, if_true, Option.some.injEq] at h
      subst h
      simp [flags, hf v0, hk]
    · simp only [hk, if_false] at h
      cases hr : setProp rest k f with
      | none => simp [hr] at h
      | some r =>
        simp only [hr, Option.map_some', Option.some.injEq] at h
        subst h
        have := ih r hr
        simp only [flags, List.map_cons] at this ⊢
        rw [this]

theorem flags_lookup (m m' : List (String × PartDescriptor)) (h : flags m = flags m')
    (k : String) :
    (m.lookup k).map (fun d => (d.editable, d.isFabric)) =
      (m'.lookup k).map (fun d => (d.editable, d.isFabric)) := by
  induction m generalizing m' with
  | nil =>
    cases m' with
    | nil => rfl
    | cons e' r' => simp [flags] at h
  | cons e r ih =>
    cases m' with
    | nil => simp [flags] at h
    | cons e' r' =>
      obtain ⟨k0, d0⟩ := e
      obtain ⟨k1, d1⟩ := e'
      simp only [flags, List.map_cons, List.cons.injEq, Prod.mk.injEq] at h
      obtain ⟨⟨rfl, he, hf⟩, hr⟩ := h
      by_cases hk : (k == k0) = true
      · simp [List.lookup, hk, he, hf]
      · have hk' : (k == k0) = false := by simpa using hk
        simp only [List.lookup, hk']
        exact ih r' hr

theorem flags_keys (m m' : List (String × PartDescriptor)) (h : flags m = flags m') :
    keys m = keys m' := by
  have : (flags m).map Prod.fst = (flags m').map Prod.fst := by rw [h]
  simpa [flags, keys, List.map_map, Function.comp_def] using this

theorem mem_of_lookup {α : Type} (t : List (String × α)) (k : String) (v : α)
    (h : t.lookup k = some v) : (k, v) ∈ t := by
  induction t with
  | nil => simp at h
  | cons e rest ih =>
    obtain ⟨k0, v0⟩ := e
    by_cases hk : (k == k0) = true
    · simp only [List.lookup, hk, Option.some.injEq] at h
      subst h
      have : k = k0 := by simpa using hk
      simp [this]
    · have hk' : (k == k0) = false := by simpa using hk
      simp only [List.lookup, hk'] at h
      exact List.mem_cons_of_mem _ (ih h)

theorem Writes.trans {pat nrm : String → Prop} {a b c : List (String × PartDescriptor)}
    (h1 : Writes pat nrm a b) (h2 : Writes pat nrm b c) : Writes pat nrm a c := by
  induction h1 with
  | refl m => exact h2
  | step m m' m'' w _ ih => exact Writes.step m m' c w (ih h2)

theorem Writes.single {pat nrm : String → Prop} {a b : List (String × PartDescriptor)}
    (w : Write pat nrm a b) : Writes pat nrm a b :=
  Writes.step a b b w (Writes.refl b)

theorem tableInv_setProp (m m' : List (String × PartDescriptor)) (k : String)
    (f : PartDescriptor → PartDescriptor) (hk : EditableKey k)
    (hf : ∀ d, (f d).editable = d.editable ∧ (f d).isFabric = d.isFabric ∧
      (d.color.isSome = true → (f d).color.isSome = true))
    (hinv : TableInv m) (h : setProp m k f = some m') : TableInv m' := by
  obtain ⟨v, _, _, hother, _⟩ := setProp_some m k f m' h
  refine ⟨?_, ?_, ?_⟩
  · rw [setProp_flags m k f m' (fun d => ⟨(hf d).1, (hf d).2.1⟩) h]
    exact hinv.sameFlags
  · intro k' d hd he
    have hne : k' ≠ k := by
      rintro rfl
      obtain ⟨d', hd', he'⟩ := hk
      rw [hd] at hd'
      simp only [Option.some.injEq] at hd'
      subst hd'
      rw [he] at he'
      exact absurd he' (by simp)
    rw [hother k' hne]
    exact hinv.frozen k' d hd he
  · intro e he hed
    rcases setProp_mem m k f m' h e he with h1 | ⟨v', hv', rfl⟩
    · exact hinv.colored e h1 hed
    · simp only at hed ⊢
      rw [(hf v').1] at hed
      exact (hf v').2.2 (hinv.colored (k, v') hv' hed)

theorem tableInv_write {pat nrm : String → Prop} (m m' : List (String × PartDescriptor))
    (hinv : TableInv m) (w : Write pat nrm m m') : TableInv m' := by
  cases w with
  | color k val hk h =>
    refine tableInv_setProp m m' k _ hk ?_ hinv h
    exact fun d => ⟨rfl, rfl, fun _ => rfl⟩
  | pattern k val hk _ h =>
    refine tableInv_setProp m m' k _ hk ?_ hinv h
    exact fun d => ⟨rfl, rfl, fun hc => hc⟩
  | normal k val hk _ h =>
    refine tableInv_setProp m m' k _ hk ?_ hinv h
    exact fun d => ⟨rfl, rfl, fun hc => hc⟩

theorem tableInv_writes {pat nrm : String → Prop} (m m' : List (String × PartDescriptor))
    (hinv : TableInv m) (w : Writes pat nrm m m') : TableInv m' := by
  induction w with
  | refl m => exact hinv
  | step m m1 m2 w _ ih => exact ih (tableInv_write m m1 hinv w)

theorem tableInv_declared : TableInv declaredMeshes := by
  refine ⟨rfl, fun k d hd _ => hd, ?_⟩
  decide

theorem integrity_setProp (textures : List (String × TextureEntry))
    (m m' : List (String × PartDescriptor)) (k : String)
    (f : PartDescriptor → PartDescriptor)
    (hf : ∀ d, (patternOk textures d.pattern && normalOk textures d.normal) = true →
      (patternOk textures (f d).pattern && normalOk textures (f d).normal) = true)
    (hinv : refIntegrity textures m = true) (h : setProp m k f = some m') :
    refIntegrity textures m' = true := by
  unfold refIntegrity at hinv ⊢
  rw [List.all_eq_true] at hinv ⊢
  intro e he
  rcases setProp_mem m k f m' h e he with h1 | ⟨v, hv, rfl⟩
  · exact hinv e h1
  · exact hf v (hinv (k, v) hv)

theorem integrity_write {pat nrm : String → Prop} (textures : List (String × TextureEntry))
    (m m' : List (String × PartDescriptor))
    (hpat : ∀ v, pat v → patternOk textures (some v) = true)
    (hnrm : ∀ v, nrm v → normalOk textures (some v) = true)
    (hinv : refIntegrity textures m = true) (w : Write pat nrm m m') :
    refIntegrity textures m' = true := by
  cases w with
  | color k val hk h =>
    refine integrity_setProp textures m m' k _ ?_ hinv h
    exact fun d hd => hd
  | pattern k val hk hp h =>
    refine integrity_setProp textures m m' k _ ?_ hinv h
    intro d hd
    simp only [Bool.and_eq_true] at hd ⊢
    exact ⟨hpat val hp, hd.2⟩
  | normal k val hk hn h =>
    refine integrity_setProp textures m m' k _ ?_ hinv h
    intro d hd
    simp only [Bool.and_eq_true] at hd ⊢
    exact ⟨hd.1, hnrm val hn⟩

theorem integrity_writes {pat nrm : String → Prop} (textures : List (String × TextureEntry))
    (m m' : List (String × PartDescriptor))
    (hpat : ∀ v, pat v → patternOk textures (some v) = true)
    (hnrm : ∀ v, nrm v → normalOk textures (some v) = true)
    (hinv : refIntegrity textures m = true) (w : Writes pat nrm m m') :
    refIntegrity textures m' = true := by
  induction w with
  | refl m => exact hinv
  | step m m1 m2 w _ ih => exact ih (integrity_write textures m m1 hpat hnrm hinv w)

/-! ## The control panel -/

theorem guiShape_of_frame (s s' : App) (cur : Option String) (h : frame s' = frame s)
    (hG : GuiShape s cur) : GuiShape s' cur := by
  simp only [frame, Prod.mk.injEq] at h
  obtain ⟨_, _, h1, h2, h3, h4⟩ := h
  unfold GuiShape NoPanel at hG ⊢
  rw [h1, h2, h3, h4]
  exact hG

theorem editableKey_ne_shoeMaterial (k : String) (hk : EditableKey k) : k ≠ "Shoe Material" := by
  rintro rfl
  obtain ⟨d, hd, _⟩ := hk
  have : declaredMeshes.lookup "Shoe Material" = none := by decide
  rw [this] at hd
  exact absurd hd (by simp)

theorem editable_of_getProp (m : List (String × PartDescriptor)) (k : String)
    (d : PartDescriptor) (hinv : TableInv m) (h : getProp m noDescriptor k = some d)
    (he : d.editable = true) :
    EditableKey k ∧ m.lookup k = some d ∧ d.color.isSome = true := by
  unfold getProp at h
  cases hl : m.lookup k with
  | none =>
    simp only [hl] at h
    split at h
    · simp only [Option.some.injEq] at h
      subst h
      simp [noDescriptor] at he
    · simp at h
  | some v =>
    simp only [hl, Option.some.injEq] at h
    subst h
    refine ⟨?_, rfl, hinv.colored (k, v) (mem_of_lookup m k v hl) he⟩
    have hf := flags_lookup m declaredMeshes hinv.sameFlags k
    rw [hl] at hf
    cases hd : declaredMeshes.lookup k with
    | none => simp [hd] at hf
    | some d0 =>
      simp only [hd, Option.map_some', Option.some.injEq, Prod.mk.injEq] at hf
      exact ⟨d0, hd, by rw [← hf.1]; exact he⟩

theorem addGUIFolderTeardown_spec (s : App) (cur : Option String) (hG : GuiShape s cur)
    (hgui : s.gui ≠ none) :
    addGUIFolderTeardown s = Outcome.done
      { s with gui := some [shoeMaterialFolder], textureFolder := none, textureColor := none,
               texturePattern := none } := by
  obtain ⟨tex, sf, meshes, model, mats, gui, tf, tc, tp, tu⟩ := s
  unfold GuiShape NoPanel at hG
  simp only at hG hgui
  rcases hG with ⟨h1, -⟩ | hG
  · exact absurd h1 hgui
  · cases cur with
    | none =>
      simp only at hG
      obtain ⟨rfl, rfl, rfl, rfl⟩ := hG
      rfl
    | some k =>
      simp only at hG
      obtain ⟨hk, rfl, rfl, htp, rfl⟩ := hG
      have hne := editableKey_ne_shoeMaterial k hk
      have hne' : ¬ ("Shoe Material" = k) := fun e => hne e.symm
      rcases htp with rfl | rfl
      · simp [addGUIFolderTeardown, removeGUIControls, Outcome.andThen, removeController,
          shoeMaterialFolder, hne']
      · have hcp : ¬ (colorController k = patternController k) := by
          simp [colorController, patternController]
        simp [addGUIFolderTeardown, removeGUIControls, Outcome.andThen, removeController,
          shoeMaterialFolder, hne', hcp, List.erase_cons]

theorem addGUIFolderCreate_spec (s : App) (k : String) (d : PartDescriptor)
    (hgui : s.gui = some [shoeMaterialFolder]) (hno : NoPanel s) (hk : EditableKey k)
    (hd : getProp s.meshes noDescriptor k = some d) (hcol : d.color.isSome = true)
    (htex : s.textures = declaredTextures) :
    addGUIFolderCreate k s = Outcome.done
      { s with
        gui := some
          [ shoeMaterialFolder,
            { name := k
              controllers := colorController k ::
                (if truthyStr d.pattern then [patternController k] else [])
              closed := false } ]
        textureFolder := some k
        textureColor := some (colorController k)
        texturePattern := if truthyStr d.pattern then some (patternController k) else none } := by
  obtain ⟨tex, sf, meshes, model, mats, gui, tf, tc, tp, tu⟩ := s
  unfold NoPanel at hno
  simp only at hgui hno hd htex
  obtain ⟨rfl, rfl, rfl⟩ := hno
  subst hgui htex
  have hne := editableKey_ne_shoeMaterial k hk
  have hne' : ¬ ("Shoe Material" = k) := fun e => hne e.symm
  by_cases hp : truthyStr d.pattern = true
  · simp [addGUIFolderCreate, addControls, removeGUIControls, Outcome.andThen, addController,
      openFolder, shoeMaterialFolder, hne', hd, hcol, hp, colorController, patternController]
  · simp [addGUIFolderCreate, addControls, removeGUIControls, Outcome.andThen, addController,
      openFolder, shoeMaterialFolder, hne', hd, hcol, hp, colorController, patternController]

/-! ## One event -/

theorem andThen_quiet (o : Outcome) (k : App → Outcome) (hk : Quiet k) :
    frame (o.andThen k).state = frame o.state ∧
    (o.andThen k).state.meshes = o.state.meshes ∧
    (o.andThen k).state.shoeFabric = o.state.shoeFabric := by
  cases o with
  | done s => exact hk s
  | threw s => exact ⟨rfl, rfl, rfl⟩

theorem getMeshRef_congr (m m' : List (String × PartDescriptor)) (model : Node) (t : ObjRef)
    (h : keys m = keys m') : getMeshRef m model t = getMeshRef m' model t := by
  unfold getMeshRef
  rw [h]

theorem editableKey_iff (m : List (String × PartDescriptor)) (k : String) (hinv : TableInv m) :
    EditableKey k ↔ ∃ d, getProp m noDescriptor k = some d ∧ d.editable = true := by
  constructor
  · rintro ⟨d0, hd0, he0⟩
    have hf := flags_lookup m declaredMeshes hinv.sameFlags k
    rw [hd0] at hf
    cases hl : m.lookup k with
    | none => simp [hl] at hf
    | some d =>
      simp only [hl, Option.map_some', Option.some.injEq, Prod.mk.injEq] at hf
      exact ⟨d, getProp_of_lookup m noDescriptor k d hl, by rw [hf.1]; exact he0⟩
  · rintro ⟨d, hd, he⟩
    exact (editable_of_getProp m k d hinv hd he).1

theorem editableKey_of_isFabric (m : List (String × PartDescriptor)) (k : String)
    (d : PartDescriptor) (hinv : TableInv m) (h : getProp m noDescriptor k = some d)
    (hfab : d.isFabric = true) : EditableKey k := by
  unfold getProp at h
  cases hl : m.lookup k with
  | none =>
    simp only [hl] at h
    split at h
    · simp only [Option.some.injEq] at h
      subst h
      simp [noDescriptor] at hfab
    · simp at h
  | some v =>
    simp only [hl, Option.some.injEq] at h
    subst h
    have hf := flags_lookup m declaredMeshes hinv.sameFlags k
    rw [hl] at hf
    cases hd : declaredMeshes.lookup k with
    | none => simp [hd] at hf
    | some d0 =>
      simp only [hd, Option.map_some', Option.some.injEq, Prod.mk.injEq] at hf
      have hall : ∀ e ∈ declaredMeshes, e.2.isFabric = true → e.2.editable = true := by decide
      exact ⟨d0, hd, hall (k, d0) (mem_of_lookup declaredMeshes k d0 hd) (by rw [← hf.2]; exact hfab)⟩

theorem onMouseDown_spec (model : Node) (s : App) (cur : Option String) (target : ObjRef)
    (h : Inv model s cur) :
    (onMouseDown target s).state.textures = s.textures ∧
    (onMouseDown target s).state.model = s.model ∧
    (onMouseDown target s).state.meshes = s.meshes ∧
    GuiShape (onMouseDown target s).state (nextPanel model (Event.mouseDown target) cur) := by
  have hkeys : keys s.meshes = keys declaredMeshes := flags_keys _ _ h.table.sameFlags
  have hiff := fun k => editableKey_iff s.meshes k h.table
  have hmr : getMeshRef s.meshes s.model target = getMeshRef declaredMeshes model target := by
    rw [getMeshRef_congr s.meshes declaredMeshes s.model target hkeys, h.model]
  cases hg : getMeshRef declaredMeshes model target with
  | none =>
    have hn : nextPanel model (Event.mouseDown target) cur = cur := by
      simp [nextPanel, pressedPart, hg]
    have ho : onMouseDown target s = Outcome.threw s := by
      unfold onMouseDown
      rw [hmr, hg]
    rw [hn, ho]
    exact ⟨rfl, rfl, rfl, h.gui⟩
  | some k =>
    by_cases hk : EditableKey k
    · obtain ⟨d, hd, he⟩ := (hiff k).mp hk
      obtain ⟨d0, hd0, he0⟩ := hk
      have hcol := (editable_of_getProp s.meshes k d h.table hd he).2.2
      have hn : nextPanel model (Event.mouseDown target) cur = some k := by
        simp [nextPanel, pressedPart, hg, hd0, he0]
      have ho : onMouseDown target s = addGUIFolder k s := by
        unfold onMouseDown
        rw [hmr, hg]
        simp only [hd, he, if_true]
      rw [hn, ho]
      unfold addGUIFolder
      by_cases hgui : s.gui = none
      · have hno : NoPanel s := by
          rcases h.gui with ⟨_, hno⟩ | hG
          · exact hno
          · cases cur with
            | none => exact hG.2
            | some k' =>
              simp only at hG
              rw [hG.2.2.2.2] at hgui
              exact absurd hgui (by simp)
        have ht : addGUIFolderTeardown s = Outcome.done s := by
          unfold addGUIFolderTeardown
          rw [hno.1]
        have hc : addGUIFolderCreate k s = Outcome.threw s := by
          unfold addGUIFolderCreate
          rw [hgui]
        rw [ht]
        simp only [Outcome.andThen]
        rw [hc]
        exact ⟨by trivial, by trivial, by trivial, Or.inl ⟨hgui, hno⟩⟩
      · rw [addGUIFolderTeardown_spec s cur h.gui hgui]
        simp only [Outcome.andThen]
        have hc := addGUIFolderCreate_spec
          { s with gui := some [shoeMaterialFolder], textureFolder := none, textureColor := none,
                   texturePattern := none }
          k d rfl ⟨rfl, rfl, rfl⟩ ⟨d0, hd0, he0⟩ hd hcol h.textures
        rw [hc]
        refine ⟨by trivial, by trivial, by trivial, Or.inr ?_⟩
        simp only [Outcome.state]
        refine ⟨⟨d0, hd0, he0⟩, by trivial, by trivial, ?_, ?_⟩
        · by_cases hp : truthyStr d.pattern = true <;> simp [hp]
        · by_cases hp : truthyStr d.pattern = true <;> simp [hp]
    · have hno : ¬ ∃ d, getProp s.meshes noDescriptor k = some d ∧ d.editable = true :=
        fun hex => hk ((hiff k).mpr hex)
      have hn : nextPanel model (Event.mouseDown target) cur = cur := by
        simp only [nextPanel, pressedPart, hg]
        cases hd0 : declaredMeshes.lookup k with
        | none => rfl
        | some d0 =>
          by_cases he0 : d0.editable = true
          · exact absurd ⟨d0, hd0, he0⟩ hk
          · simp [he0]
      have ho : (onMouseDown target s).state = s := by
        unfold onMouseDown
        rw [hmr, hg]
        cases hd : getProp s.meshes noDescriptor k with
        | none => simp [hd, Outcome.state]
        | some d =>
          by_cases he : d.editable = true
          · exact absurd ⟨d, hd, he⟩ hno
          · simp [hd, he, Outcome.state]
      rw [hn, ho]
      exact ⟨rfl, rfl, rfl, h.gui⟩

theorem guiShape_textureColor (s : App) (cur : Option String) (h : GuiShape s cur) :
    s.textureColor = none ∨ ∃ k, EditableKey k ∧ s.textureColor = some (colorController k) := by
  rcases h with ⟨_, hno⟩ | h
  · exact Or.inl hno.2.1
  · cases cur with
    | none => exact Or.inl h.2.2.1
    | some k => exact Or.inr ⟨k, h.1, h.2.2.1⟩

theorem guiShape_texturePattern (s : App) (cur : Option String) (h : GuiShape s cur) :
    s.texturePattern = none ∨
      ∃ k, EditableKey k ∧ s.texturePattern = some (patternController k) := by
  rcases h with ⟨_, hno⟩ | h
  · exact Or.inl hno.2.2
  · cases cur with
    | none => exact Or.inl h.2.2.2
    | some k =>
      rcases h.2.2.2.1 with hp | hp
      · exact Or.inl hp
      · exact Or.inr ⟨k, h.1, hp⟩

theorem textureColorOnChange_quiet (meshRef : String) : Quiet (textureColorOnChange meshRef) := by
  intro s
  unfold textureColorOnChange
  split
  · exact ⟨rfl, rfl, rfl⟩
  · exact quiet_setMeshesColor _ _ s

theorem colorChange_spec (pat nrm : String → Prop) (s : App) (cur : Option String) (val : Nat)
    (hG : GuiShape s cur) :
    frame (step (Event.colorChange val) s).state = frame s ∧
    Writes pat nrm s.meshes (step (Event.colorChange val) s).state.meshes := by
  rcases guiShape_textureColor s cur hG with hc | ⟨k, hk, hc⟩
  · have : step (Event.colorChange val) s = Outcome.done s := by simp [step, hc]
    rw [this]
    exact ⟨rfl, Writes.refl _⟩
  · have : step (Event.colorChange val) s =
        match setProp s.meshes k (fun d => { d with color := some val }) with
        | none => Outcome.threw s
        | some meshes => textureColorOnChange k { s with meshes := meshes } := by
      simp [step, hc, colorController]
    rw [this]
    cases hsp : setProp s.meshes k (fun d => { d with color := some val }) with
    | none => exact ⟨rfl, Writes.refl _⟩
    | some m' =>
      have hq := textureColorOnChange_quiet k { s with meshes := m' }
      refine ⟨hq.1, ?_⟩
      simp only
      rw [hq.2.1]
      exact Writes.single (Write.color s.meshes m' k val hk hsp)

theorem texturePatternOnChange_spec (meshRef val : String) (s : App) :
    frame (texturePatternOnChange meshRef val s).state = frame s ∧
    ((texturePatternOnChange meshRef val s).state.meshes = s.meshes ∨
      setProp s.meshes meshRef (fun d => { d with pattern := some val }) =
        some (texturePatternOnChange meshRef val s).state.meshes) := by
  unfold texturePatternOnChange
  cases hsp : setProp s.meshes meshRef (fun d => { d with pattern := some val }) with
  | none => exact ⟨rfl, Or.inl rfl⟩
  | some m' =>
    simp only
    have hq := fun t => quiet_setMeshesMap (MeshRefArg.key meshRef) t { s with meshes := m' }
    repeat' split
    all_goals first
      | exact ⟨rfl, Or.inr rfl⟩
      | exact ⟨(hq _).1, Or.inr (by rw [(hq _).2.1])⟩

theorem patternChange_spec (nrm : String → Prop) (s : App) (cur : Option String) (val : String)
    (hG : GuiShape s cur) :
    frame (step (Event.patternChange val) s).state = frame s ∧
    Writes (fun v => Event.patternChange val = Event.patternChange v) nrm s.meshes
      (step (Event.patternChange val) s).state.meshes := by
  rcases guiShape_texturePattern s cur hG with hc | ⟨k, hk, hc⟩
  · have : step (Event.patternChange val) s = Outcome.done s := by simp [step, hc]
    rw [this]
    exact ⟨rfl, Writes.refl _⟩
  · have : step (Event.patternChange val) s =
        match setProp s.meshes k (fun d => { d with pattern := some val }) with
        | none => Outcome.threw s
        | some meshes => texturePatternOnChange k val { s with meshes := meshes } := by
      simp [step, hc, patternController]
    rw [this]
    cases hsp : setProp s.meshes k (fun d => { d with pattern := some val }) with
    | none => exact ⟨rfl, Writes.refl _⟩
    | some m' =>
      have hq := texturePatternOnChange_spec k val { s with meshes := m' }
      refine ⟨hq.1, ?_⟩
      have w1 : Write (fun v => Event.patternChange val = Event.patternChange v) nrm s.meshes m' :=
        Write.pattern s.meshes m' k val hk rfl hsp
      simp only
      rcases hq.2 with h2 | h2
      · rw [h2]
        exact Writes.single w1
      · exact Writes.step _ _ _ w1
          (Writes.single (Write.pattern m' _ k val hk rfl h2))

theorem forEach_setFabricNormal_spec (pat nrm : String → Prop) (val : String)
    (ks : List String) (s : App) (hks : ∀ k ∈ ks, EditableKey k) (hn : nrm val) :
    frame (forEach ks (setFabricNormal val) s).state = frame s ∧
    (forEach ks (setFabricNormal val) s).state.shoeFabric = s.shoeFabric ∧
    Writes pat nrm s.meshes (forEach ks (setFabricNormal val) s).state.meshes := by
  induction ks generalizing s with
  | nil => exact ⟨rfl, rfl, Writes.refl _⟩
  | cons k rest ih =>
    simp only [forEach, setFabricNormal]
    cases hsp : setProp s.meshes k (fun d => { d with normal := some val }) with
    | none => exact ⟨rfl, rfl, Writes.refl _⟩
    | some m' =>
      simp only [Outcome.andThen]
      have h := ih { s with meshes := m' } (fun k' hk' => hks k' (by simp [hk']))
      exact ⟨h.1, h.2.1, Writes.step _ _ _
        (Write.normal s.meshes m' k val (hks k (by simp)) hn hsp) h.2.2⟩

theorem andThen_state_cases (o : Outcome) (k : App → Outcome) (hk : Quiet k)
    (P : App → Prop)
    (hP : ∀ s s', frame s' = frame s → s'.meshes = s.meshes → P s → P s')
    (h : P o.state) : P (o.andThen k).state := by
  have hq := andThen_quiet o k hk
  exact hP _ _ hq.1 hq.2.1 h

theorem shoeFabricOnChange_spec (pat nrm : String → Prop) (val : String) (s : App)
    (hT : TableInv s.meshes) (hn : nrm val) :
    frame (shoeFabricOnChange val s).state = frame s ∧
    Writes pat nrm s.meshes (shoeFabricOnChange val s).state.meshes := by
  unfold shoeFabricOnChange
  simp only
  refine andThen_state_cases _ _ ?_
    (fun s' => frame s' = frame s ∧ Writes pat nrm s.meshes s'.meshes) ?_ ?_
  · intro s'
    simp only
    split
    · exact ⟨rfl, rfl, rfl⟩
    · exact quiet_andThen _ _ (quiet_forEach _ _ (fun x s => quiet_setMaterial _ s))
        quiet_dispatch s'
  · intro s1 s2 hf hm h1
    exact ⟨hf.trans h1.1, by rw [hm]; exact h1.2⟩
  · have h1 := forEach_setFabricNormal_spec pat nrm val
      ((keys s.meshes).filter (fun key =>
        match getProp s.meshes noDescriptor key with
        | some d => d.isFabric
        | none => false)) s ?_ hn
    · exact ⟨h1.1, h1.2.2⟩
    · intro k hk
      simp only [List.mem_filter] at hk
      cases hd : getProp s.meshes noDescriptor k with
      | none => simp [hd] at hk
      | some d =>
        simp only [hd] at hk
        exact editableKey_of_isFabric s.meshes k d hT hd hk.2

theorem fabricChange_spec (pat : String → Prop) (s : App) (val : String)
    (hT : TableInv s.meshes) :
    frame (step (Event.fabricChange val) s).state = frame s ∧
    Writes pat (fun v => Event.fabricChange val = Event.fabricChange v) s.meshes
      (step (Event.fabricChange val) s).state.meshes := by
  simp only [step]
  split
  · exact shoeFabricOnChange_spec pat (fun v => Event.fabricChange val = Event.fabricChange v)
      val { s with shoeFabric := val } hT rfl
  · exact ⟨rfl, Writes.refl _⟩

theorem step_spec (model : Node) (s : App) (cur : Option String) (e : Event)
    (h : Inv model s cur) :
    Inv model (step e s).state (nextPanel model e cur) ∧
    Writes (fun v => e = Event.patternChange v) (fun v => e = Event.fabricChange v)
      s.meshes (step e s).state.meshes := by
  have key : (step e s).state.textures = s.textures ∧ (step e s).state.model = s.model ∧
      GuiShape (step e s).state (nextPanel model e cur) ∧
      Writes (fun v => e = Event.patternChange v) (fun v => e = Event.fabricChange v)
        s.meshes (step e s).state.meshes := by
    have ofFrame : ∀ s' : App, frame s' = frame s →
        s'.textures = s.textures ∧ s'.model = s.model ∧ GuiShape s' cur := by
      intro s' hf
      have hG := guiShape_of_frame s s' cur hf h.gui
      simp only [frame, Prod.mk.injEq] at hf
      exact ⟨hf.1, hf.2.1, hG⟩
    cases e with
    | mouseOver t =>
      have hq := quiet_onMouseOver t s
      obtain ⟨a, b, c⟩ := ofFrame _ hq.1
      refine ⟨a, b, c, ?_⟩
      show Writes _ _ s.meshes (onMouseOver t s).state.meshes
      rw [hq.2.1]
      exact Writes.refl _
    | mouseOut t =>
      have hq := quiet_onMouseOut t s
      obtain ⟨a, b, c⟩ := ofFrame _ hq.1
      refine ⟨a, b, c, ?_⟩
      show Writes _ _ s.meshes (onMouseOut t s).state.meshes
      rw [hq.2.1]
      exact Writes.refl _
    | mouseDown t =>
      obtain ⟨a, b, c, d⟩ := onMouseDown_spec model s cur t h
      refine ⟨a, b, d, ?_⟩
      show Writes _ _ s.meshes (onMouseDown t s).state.meshes
      rw [c]
      exact Writes.refl _
    | colorChange val =>
      obtain ⟨hf, hw⟩ := colorChange_spec _ _ s cur val h.gui
      obtain ⟨a, b, c⟩ := ofFrame _ hf
      exact ⟨a, b, c, hw⟩
    | patternChange val =>
      obtain ⟨hf, hw⟩ := patternChange_spec _ s cur val h.gui
      obtain ⟨a, b, c⟩ := ofFrame _ hf
      exact ⟨a, b, c, hw⟩
    | fabricChange val =>
      obtain ⟨hf, hw⟩ := fabricChange_spec _ s val h.table
      obtain ⟨a, b, c⟩ := ofFrame _ hf
      exact ⟨a, b, c, hw⟩
  obtain ⟨a, b, c, d⟩ := key
  exact ⟨⟨a.trans h.textures, b.trans h.model, tableInv_writes _ _ h.table d, c⟩, d⟩

/-! ## Sequences of events -/

theorem loadModel_inv (model : Node) (materials : List Nat → Material) :
    Inv model (loadModel model materials) none ∧
    (loadModel model materials).meshes = declaredMeshes := by
  have hq := quiet_loopThrough (declareObjects model materials)
  unfold loadModel
  cases hl : loopThrough (declareObjects model materials) with
  | done s =>
    rw [hl] at hq
    simp only [Outcome.state, frame, Prod.mk.injEq] at hq
    obtain ⟨⟨h1, h2, h3, h4, h5, h6⟩, h7, _⟩ := hq
    simp only [declareObjects] at h1 h2 h3 h4 h5 h6 h7
    refine ⟨⟨h1, h2, ?_, Or.inr ⟨?_, h4, h5, h6⟩⟩, h7⟩
    · show TableInv s.meshes
      rw [h7]
      exact tableInv_declared
    · show some _ = some _
      simp only [shoeMaterialFolder, h1]
  | threw s =>
    rw [hl] at hq
    simp only [Outcome.state, frame, Prod.mk.injEq] at hq
    obtain ⟨⟨h1, h2, h3, h4, h5, h6⟩, h7, _⟩ := hq
    simp only [declareObjects] at h1 h2 h3 h4 h5 h6 h7
    refine ⟨⟨h1, h2, ?_, Or.inl ⟨h3, h4, h5, h6⟩⟩, h7⟩
    show TableInv s.meshes
    rw [h7]
    exact tableInv_declared

theorem run_inv (model : Node) (s : App) (cur : Option String) (events : List Event)
    (h : Inv model s cur) : Inv model (run s events) (panelAfter model cur events) := by
  induction events generalizing s cur with
  | nil => exact h
  | cons e es ih => exact ih _ _ (step_spec model s cur e h).1

theorem patternOk_options :
    ∀ v ∈ patternOptions declaredTextures, patternOk declaredTextures (some v) = true := by
  decide

theorem normalOk_options :
    ∀ v ∈ fabricOptions declaredTextures, normalOk declaredTextures (some v) = true := by
  decide

theorem run_integrity (model : Node) (s : App) (cur : Option String) (events : List Event)
    (h : Inv model s cur) (hint : refIntegrity declaredTextures s.meshes = true)
    (hadm : ∀ e ∈ events, admissible declaredTextures e = true) :
    refIntegrity declaredTextures (run s events).meshes = true := by
  induction events generalizing s cur with
  | nil => exact hint
  | cons e es ih =>
    obtain ⟨hinv, hw⟩ := step_spec model s cur e h
    have hae := hadm e (by simp)
    refine ih _ _ hinv ?_ (fun e' he' => hadm e' (by simp [he']))
    refine integrity_writes declaredTextures _ _ ?_ ?_ hint hw
    · intro v hv
      subst hv
      exact patternOk_options v (by simpa [admissible] using hae)
    · intro v hv
      subst hv
      exact normalOk_options v (by simpa [admissible] using hae)

theorem applyPattern_of_patternOk (textures : List (String × TextureEntry))
    (d : PartDescriptor) (mat : Material) (h : patternOk textures d.pattern = true) :
    ∃ m, applyPattern textures d mat = some m ∧
      (m = mat ∨ ∃ url, m = { mat with map := some { src := some url } }) := by
  unfold applyPattern
  cases hp : d.pattern with
  | none => exact ⟨mat, rfl, Or.inl rfl⟩
  | some pat =>
    simp only
    split
    · rename_i hc
      simp only [Bool.and_eq_true, bne_iff_ne, ne_eq] at hc
      rw [hp] at h
      simp only [patternOk, Bool.or_eq_true, beq_iff_eq, hc.2, false_or] at h
      cases hl : textures.lookup pat with
      | none => simp [hl] at h
      | some entry =>
        simp only [hl, Option.isSome_iff_exists] at h
        obtain ⟨url, hurl⟩ := h
        exact ⟨{ mat with map := some { src := some url } },
          by simp [getProp, hl, getTexture, hurl], Or.inr ⟨url, rfl⟩⟩
    · exact ⟨mat, rfl, Or.inl rfl⟩

theorem applyNormal_of_normalOk (textures : List (String × TextureEntry))
    (d : PartDescriptor) (mat : Material) (h : normalOk textures d.normal = true) :
    ∃ m, applyNormal textures d mat = some m ∧
      (m = mat ∨ ∃ url, m = { mat with normalMap := some { src := some url } }) := by
  unfold applyNormal
  cases hp : d.normal with
  | none => exact ⟨mat, rfl, Or.inl rfl⟩
  | some nrm =>
    simp only
    split
    · rw [hp] at h
      simp only [normalOk] at h
      cases hl : textures.lookup nrm with
      | none => simp [hl] at h
      | some entry =>
        simp only [hl, Option.isSome_iff_exists] at h
        obtain ⟨url, hurl⟩ := h
        exact ⟨{ mat with normalMap := some { src := some url } },
          by simp [getProp, hl, getTexture, hurl], Or.inr ⟨url, rfl⟩⟩
    · exact ⟨mat, rfl, Or.inl rfl⟩

theorem lookup_of_patternOk (textures : List (String × TextureEntry)) (v : String)
    (h : patternOk textures (some v) = true) :
    v = "None" ∨ ∃ entry url, textures.lookup v = some entry ∧ entry.pattern = some url := by
  simp only [patternOk, Bool.or_eq_true, beq_iff_eq] at h
  rcases h with h | h
  · exact Or.inl h
  · cases hl : textures.lookup v with
    | none => simp [hl] at h
    | some entry =>
      simp only [hl, Option.isSome_iff_exists] at h
      obtain ⟨url, hurl⟩ := h
      exact Or.inr ⟨entry, url, rfl, hurl⟩

/-! ## Claims about every session -/

/-- C5: for every model, every sequence of events (hover-enter, hover-exit,
press, colour change, pattern change, fabric type change) and every part whose
declared descriptor has `editable = false`, the descriptor of that part after
the sequence is the declared one: no field has changed. -/
theorem nonEditable_descriptor_unchanged (model : Node) (materials : List Nat → Material)
    (events : List Event) (k : String) (d : PartDescriptor)
    (hk : declaredMeshes.lookup k = some d) (he : d.editable = false) :
    (run (loadModel model materials) events).meshes.lookup k = some d :=
  (run_inv model _ none events (loadModel_inv model materials).1).table.frozen k d hk he

/-- Witness for `nonEditable_descriptor_unchanged`: part "Tag" of `shoeScene`
through `sampleSession`. -/
theorem nonEditable_descriptor_unchanged_witness :
    declaredMeshes.lookup "Tag" =
      some { color := none, pattern := none, normal := some "Canvas", editable := false,
             isFabric := false } ∧
    (run (loadModel shoeScene (fun _ => gltfMaterial)) sampleSession).meshes.lookup "Tag" =
      some { color := none, pattern := none, normal := some "Canvas", editable := false,
             isFabric := false } :=
  ⟨by decide,
    nonEditable_descriptor_unchanged shoeScene (fun _ => gltfMaterial) sampleSession "Tag" _
      (by decide) rfl⟩

/-- C8: the declared tables have reference integrity, and after every sequence
of events whose pattern and fabric type values are among the options of their
controls the registry is the declared one and the descriptor table still has
reference integrity; hence for every descriptor of the table the pattern and
normal steps of `setMaterial` do not throw and bind only textures that have a
URL, and every option of the pattern control other than "None" names a
registry entry with a pattern image. -/
theorem refIntegrity_invariant (model : Node) (materials : List Nat → Material)
    (events : List Event) (hadm : ∀ e ∈ events, admissible declaredTextures e = true) :
    refIntegrity declaredTextures declaredMeshes = true ∧
    (run (loadModel model materials) events).textures = declaredTextures ∧
    refIntegrity (run (loadModel model materials) events).textures
      (run (loadModel model materials) events).meshes = true ∧
    (∀ e ∈ (run (loadModel model materials) events).meshes, ∀ mat : Material,
      ∃ m1 m2,
        applyPattern (run (loadModel model materials) events).textures e.2 mat = some m1 ∧
        (m1 = mat ∨ ∃ url, m1 = { mat with map := some { src := some url } }) ∧
        applyNormal (run (loadModel model materials) events).textures e.2 m1 = some m2 ∧
        (m2 = m1 ∨ ∃ url, m2 = { m1 with normalMap := some { src := some url } })) ∧
    (∀ v ∈ patternOptions (run (loadModel model materials) events).textures,
      v = "None" ∨ ∃ entry url,
        (run (loadModel model materials) events).textures.lookup v = some entry ∧
        entry.pattern = some url) := by
  obtain ⟨hinv0, hm0⟩ := loadModel_inv model materials
  have hinv := run_inv model _ none events hinv0
  have hint := run_integrity model _ none events hinv0
    (by rw [hm0]; decide) hadm
  rw [hinv.textures]
  refine ⟨by decide, rfl, hint, ?_, ?_⟩
  · intro e he mat
    have hall := hint
    unfold refIntegrity at hall
    rw [List.all_eq_true] at hall
    have hok := hall e he
    simp only [Bool.and_eq_true] at hok
    obtain ⟨m1, h1, h1'⟩ := applyPattern_of_patternOk declaredTextures e.2 mat hok.1
    obtain ⟨m2, h2, h2'⟩ := applyNormal_of_normalOk declaredTextures e.2 m1 hok.2
    exact ⟨m1, m2, h1, h1', h2, h2'⟩
  · intro v hv
    exact lookup_of_patternOk declaredTextures v (patternOk_options v hv)

/-- Witness for `refIntegrity_invariant`: `sampleSession` on `shoeScene`. -/
theorem refIntegrity_invariant_witness :
    (∀ e ∈ sampleSession, admissible declaredTextures e = true) ∧
    refIntegrity (run (loadModel shoeScene (fun _ => gltfMaterial)) sampleSession).textures
      (run (loadModel shoeScene (fun _ => gltfMaterial)) sampleSession).meshes = true :=
  ⟨by decide,
    (refIntegrity_invariant shoeScene (fun _ => gltfMaterial) sampleSession (by decide)).2.2.1⟩

/-! ## Colours other than black -/

theorem applyPattern_color (textures : List (String × TextureEntry)) (d : PartDescriptor)
    (mat m : Material) (h : applyPattern textures d mat = some m) : m.color = mat.color := by
  unfold applyPattern at h
  repeat' split at h
  all_goals first
    | (simp only [Option.some.injEq] at h; subst h; rfl)
    | (simp at h)

theorem applyNormal_color (textures : List (String × TextureEntry)) (d : PartDescriptor)
    (mat m : Material) (h : applyNormal textures d mat = some m) : m.color = mat.color := by
  unfold applyNormal at h
  repeat' split at h
  all_goals first
    | (simp only [Option.some.injEq] at h; subst h; rfl)
    | (simp at h)

/-- The colour step works for every colour but black: when the resolved
descriptor has a colour `c ≠ 0` and `setMaterial` ends normally, the node's
material colour is `setHex c` (that is `c` for an RGB value). -/
theorem setMaterial_color_of_nonzero (child : ChildArg) (s s' : App) (r : ObjRef)
    (p : List Nat) (meshRef : String) (d : PartDescriptor) (c : Nat)
    (hr : resolveChild s.model child = some r)
    (hm : getMeshRef s.meshes s.model r = some meshRef)
    (hp : materialSlot s.model r = some p)
    (hd : getProp s.meshes noDescriptor meshRef = some d)
    (hc : d.color = some c) (hne : c ≠ 0)
    (hdone : setMaterial child s = Outcome.done s') :
    (s'.materials p).color = some (setHex c) := by
  unfold setMaterial at hdone
  simp only [hr, hm, hp, hd] at hdone
  split at hdone
  · exact absurd hdone (by simp)
  · rename_i m1 h1
    split at hdone
    · exact absurd hdone (by simp)
    · rename_i m2 h2
      simp only [Outcome.done.injEq] at hdone
      subst hdone
      have e1 := applyPattern_color _ _ _ _ h1
      have e2 := applyNormal_color _ _ _ _ h2
      have hne' : (c != 0) = true := by simpa using hne
      simp only [setMat, if_true]
      rw [e2, e1]
      simp [applyColor, truthyNum, hc, hne']

/-- The hover round trip restores the material when the colour is not black:
in `tealStripeState` the leaf of "Stripe" has the same material before the
hover and after hover-enter and hover-exit. -/
theorem hover_roundtrip_teal_restored :
    tealStripeState.materials [0] =
      { type := "MeshPhongMaterial", color := some 0x123456, map := none, normalMap := none } ∧
    (run tealStripeState
      [Event.mouseOver (ObjRef.node [0]), Event.mouseOut (ObjRef.node [0])]).materials [0] =
      tealStripeState.materials [0] := by
  decide

/-! ## The panel after a completed load -/

theorem panelShape_of_guiShape (s : App) (cur : Option String) (h : GuiShape s cur)
    (hg : s.gui ≠ none) : PanelShape s cur := by
  rcases h with ⟨h0, _⟩ | h
  · exact absurd h0 hg
  · exact h

theorem gui_of_frame (s s' : App) (h : frame s' = frame s) (hg : s.gui ≠ none) :
    s'.gui ≠ none := by
  simp only [frame, Prod.mk.injEq] at h
  rw [h.2.2.1]
  exact hg

theorem onMouseDown_gui (model : Node) (s : App) (cur : Option String) (target : ObjRef)
    (h : Inv model s cur) (hg : s.gui ≠ none) : (onMouseDown target s).state.gui ≠ none := by
  unfold onMouseDown
  cases hm : getMeshRef s.meshes s.model target with
  | none => exact hg
  | some meshRef =>
    simp only
    cases hd : getProp s.meshes noDescriptor meshRef with
    | none => exact hg
    | some d =>
      simp only
      by_cases he : d.editable = true
      · simp only [he, if_true]
        obtain ⟨hk, _, hcol⟩ := editable_of_getProp s.meshes meshRef d h.table hd he
        unfold addGUIFolder
        rw [addGUIFolderTeardown_spec s cur h.gui hg]
        simp only [Outcome.andThen]
        have hc := addGUIFolderCreate_spec
          { s with gui := some [shoeMaterialFolder], textureFolder := none, textureColor := none,
                   texturePattern := none }
          meshRef d rfl ⟨rfl, rfl, rfl⟩ hk hd hcol h.textures
        rw [hc]
        simp [Outcome.state]
      · simp only [he, Bool.false_eq_true, if_false]
        exact hg

theorem step_gui (model : Node) (s : App) (cur : Option String) (e : Event)
    (h : Inv model s cur) (hg : s.gui ≠ none) : (step e s).state.gui ≠ none := by
  cases e with
  | mouseOver t => exact gui_of_frame s _ (quiet_onMouseOver t s).1 hg
  | mouseOut t => exact gui_of_frame s _ (quiet_onMouseOut t s).1 hg
  | mouseDown t => exact onMouseDown_gui model s cur t h hg
  | colorChange val =>
    exact gui_of_frame s _ (colorChange_spec (fun _ => True) (fun _ => True) s cur val h.gui).1 hg
  | patternChange val =>
    exact gui_of_frame s _ (patternChange_spec (fun _ => True) s cur val h.gui).1 hg
  | fabricChange val =>
    exact gui_of_frame s _ (fabricChange_spec (fun _ => True) s val h.table).1 hg

theorem run_gui (model : Node) (s : App) (cur : Option String) (events : List Event)
    (h : Inv model s cur) (hg : s.gui ≠ none) : (run s events).gui ≠ none := by
  induction events generalizing s cur with
  | nil => exact hg
  | cons e es ih => exact ih _ _ (step_spec model s cur e h).1 (step_gui model s cur e h hg)

theorem loadModel_gui (model : Node) (materials : List Nat → Material)
    (hload : (loopThrough (declareObjects model materials)).isDone = true) :
    (loadModel model materials).gui ≠ none := by
  unfold loadModel
  cases hl : loopThrough (declareObjects model materials) with
  | done s => simp [setupGUI]
  | threw s => simp [hl, Outcome.isDone] at hload

theorem removeGUIControls_spec (s : App) (cur : Option String) (h : PanelShape s cur) :
    removeGUIControls s = Outcome.done
      { s with gui := some (shoeMaterialFolder :: cur.toList.map emptyPanel),
               textureColor := none, texturePattern := none } := by
  obtain ⟨tex, sf, meshes, model, mats, gui, tf, tc, tp, tu⟩ := s
  unfold PanelShape NoPanel at h
  cases cur with
  | none =>
    simp only at h
    obtain ⟨rfl, rfl, rfl, rfl⟩ := h
    rfl
  | some k =>
    simp only at h
    obtain ⟨hk, rfl, rfl, htp, rfl⟩ := h
    have hne := editableKey_ne_shoeMaterial k hk
    have hne' : ¬ ("Shoe Material" = k) := fun e => hne e.symm
    rcases htp with rfl | rfl
    · simp [removeGUIControls, Outcome.andThen, removeController, shoeMaterialFolder, hne',
        emptyPanel]
    · have hcp : ¬ (colorController k = patternController k) := by
        simp [colorController, patternController]
      simp [removeGUIControls, Outcome.andThen, removeController, shoeMaterialFolder, hne', hcp,
        List.erase_cons, emptyPanel]

/-- C9 (as stated) fails: on `throwingScene` the load throws in `loopThrough`
after the mesh "Stripe" was set up, so `setupGUI` never runs; a press on that
mesh resolves to the editable part "Stripe", yet the handler throws and no
panel exists afterwards. -/
theorem press_after_failed_load_counterexample :
    (loopThrough (declareObjects throwingScene (fun _ => gltfMaterial))).isDone = false ∧
    pressedPart throwingScene (Event.mouseDown (ObjRef.node [0])) = some "Stripe" ∧
    (step (Event.mouseDown (ObjRef.node [0]))
      (loadModel throwingScene (fun _ => gltfMaterial))).isDone = false ∧
    (session throwingScene (fun _ => gltfMaterial)
      [Event.mouseDown (ObjRef.node [0])]).gui = none ∧
    (session throwingScene (fun _ => gltfMaterial)
      [Event.mouseDown (ObjRef.node [0])]).textureFolder = none := by
  decide

/-- C9 (amended): for every model whose load completes (`loopThrough` ends
normally, so `setupGUI` runs) and every sequence of events, the GUI after the
sequence holds "Shoe Material" and exactly the panel of the most recently
pressed editable part (no panel when none was pressed), referenced by
`textureFolder`, with the live colour and pattern controls as its controllers;
from that state `removeGUIControls` ends normally with both controls removed
from the panel and their references cleared, the first block of `addGUIFolder`
ends normally with the folder removed as well, and `addGUIFolder` on any
editable part creates the new panel from that torn-down state, leaving it as
the only panel. -/
theorem single_panel_after_load (model : Node) (materials : List Nat → Material)
    (events : List Event)
    (hload : (loopThrough (declareObjects model materials)).isDone = true) :
    PanelShape (session model materials events) (panelAfter model none events) ∧
    (session model materials events).gui.map (List.map Folder.name) =
      some ("Shoe Material" :: (panelAfter model none events).toList) ∧
    removeGUIControls (session model materials events) =
      Outcome.done
        { session model materials events with
          gui := some (shoeMaterialFolder ::
            (panelAfter model none events).toList.map emptyPanel),
          textureColor := none, texturePattern := none } ∧
    addGUIFolderTeardown (session model materials events) =
      Outcome.done
        { session model materials events with
          gui := some [shoeMaterialFolder], textureFolder := none, textureColor := none,
          texturePattern := none } ∧
    ∀ meshRef d,
      getProp (session model materials events).meshes noDescriptor meshRef = some d →
      d.editable = true →
      addGUIFolder meshRef (session model materials events) =
        addGUIFolderCreate meshRef
          { session model materials events with
            gui := some [shoeMaterialFolder], textureFolder := none, textureColor := none,
            texturePattern := none } ∧
      addGUIFolder meshRef (session model materials events) =
        Outcome.done
          { session model materials events with
            gui := some
              [ shoeMaterialFolder,
                { name := meshRef
                  controllers := colorController meshRef ::
                    (if truthyStr d.pattern then [patternController meshRef] else [])
                  closed := false } ]
            textureFolder := some meshRef
            textureColor := some (colorController meshRef)
            texturePattern :=
              if truthyStr d.pattern then some (patternController meshRef) else none } := by
  have hinv0 := (loadModel_inv model materials).1
  have hinv : Inv model (session model materials events) (panelAfter model none events) :=
    run_inv model _ none events hinv0
  have hgui : (session model materials events).gui ≠ none :=
    run_gui model _ none events hinv0 (loadModel_gui model materials hload)
  have hP := panelShape_of_guiShape _ _ hinv.gui hgui
  have hT := addGUIFolderTeardown_spec _ _ hinv.gui hgui
  refine ⟨hP, ?_, removeGUIControls_spec _ _ hP, hT, ?_⟩
  · unfold PanelShape at hP
    cases hp : panelAfter model none events with
    | none =>
      rw [hp] at hP
      simp only at hP
      rw [hP.1]
      rfl
    | some k =>
      rw [hp] at hP
      simp only at hP
      rw [hP.2.2.2.2]
      rfl
  · intro meshRef d hd he
    obtain ⟨hk, _, hcol⟩ :=
      editable_of_getProp (session model materials events).meshes meshRef d hinv.table hd he
    have h1 : addGUIFolder meshRef (session model materials events) =
        addGUIFolderCreate meshRef
          { session model materials events with
            gui := some [shoeMaterialFolder], textureFolder := none, textureColor := none,
            texturePattern := none } := by
      unfold addGUIFolder
      rw [hT]
      rfl
    refine ⟨h1, ?_⟩
    rw [h1]
    exact addGUIFolderCreate_spec _ meshRef d rfl ⟨rfl, rfl, rfl⟩ hk hd hcol hinv.textures

/-- Witness for `single_panel_after_load`: `sampleSession` on `shoeScene`
opens the panel of "Vamp" and replaces it by the panel of "Laces". -/
theorem single_panel_after_load_witness :
    (loopThrough (declareObjects shoeScene (fun _ => gltfMaterial))).isDone = true ∧
    panelAfter shoeScene none sampleSession = some "Laces" ∧
    (session shoeScene (fun _ => gltfMaterial) sampleSession).gui.map (List.map Folder.name) =
      some ("Shoe Material" :: (panelAfter shoeScene none sampleSession).toList) :=
  ⟨by decide, by decide,
    (single_panel_after_load shoeScene (fun _ => gltfMaterial) sampleSession (by decide)).2.1⟩


/-- Above 24 bits the stored colour is the low 24 bits of the number. -/
theorem newColor_overflow :
    newColor (some 0x1000000) = 0 ∧ newColor (some 0x1abcdef) = 0xabcdef := by
  decide

end Application
